import Mathlib

/-!
Verification development for the NVDA two-exchange arbitrage bot.

Shallow embedding of the decision core over exact rationals (ℚ stands in
for Python floats; all arithmetic in the embedded code is the same
field arithmetic, so the control flow is preserved exactly):

* `core/risk_manager.py`  — `RiskManager.can_open_position`,
  `RiskManager.calculate_position_size`
* `core/arbitrage_engine.py` — `Position.should_close`, `Position.from_dict`,
  `ArbitrageEngine.calculate_spreads`, `ArbitrageEngine.calculate_exit_spread`,
  `ArbitrageEngine.find_opportunity`, `ArbitrageEngine.execute_opportunity`,
  `ArbitrageEngine.calculate_trade_pnl`
* `core/websocket_clients.py` — `OrderBookAnalyzer.calculate_slippage`,
  `OrderBookAnalyzer.calculate_average_price`
* `core/connection_manager.py` — `WebSocketManager.reconnect_connection`
* `core/paper_executor.py` — `PaperTradeExecutor.execute_market_order`,
  `PaperTradeExecutor.execute_fok_pair`
* `core/live_executor.py` — `LiveTradeExecutor.execute_fok_pair_async`
  (the two network leg submissions are abstracted as outcome parameters)

Python dictionaries with optional keys are embedded as structures with
`Option` fields; a falsy dict argument is `none`.  Strings produced by
f-string interpolation of numbers are modelled by an inductive reason
type carrying the numbers, plus a message function for the constant
strings.
-/

/-! ### Data model: trade direction and positions (`core/arbitrage_engine.py`) -/

inductive TradeDirection where
  | B_TO_H
  | H_TO_B
deriving DecidableEq, Repr

/-- The `entry_prices` dict `{'buy': …, 'sell': …}` of a position. -/
structure EntryPrices where
  buy : ℚ
  sell : ℚ
deriving DecidableEq, Repr

/-- The fields of `Position` (core/arbitrage_engine.py lines 19–59) that the
decision core reads.  Exit bookkeeping fields (`exit_time`, `exit_reason`,
`exit_prices`, `final_pnl`) and `entry_slippage` / `last_spread_update` are
write-only for the properties considered here and are omitted. -/
structure Position where
  id : String
  direction : TradeDirection
  entry_time : ℚ
  contracts : ℚ
  entry_prices : EntryPrices
  entry_spread : ℚ
  exit_target : ℚ
  status : String
  current_exit_spread : ℚ
  spread_history : List ℚ
  update_count : ℕ
deriving DecidableEq, Repr

/-- `Position.should_close` (lines 68–75): close when
`current_exit_spread >= exit_target - 0.001`. -/
def should_close (p : Position) : Bool :=
  decide (p.exit_target - 1/1000 ≤ p.current_exit_spread)

/-- A persisted position record as read back from `positions.json`:
every field may be absent (`Position.from_dict` is written to tolerate
partially-filled legacy records).  The direction string parsing heuristic of
`Position._parse_direction` is abstracted to an already-parsed
`Option TradeDirection` (its fallback default `H→B` is kept). -/
structure PositionRecord where
  id : String
  direction : Option TradeDirection
  entry_time : Option ℚ
  contracts : Option ℚ
  entry_prices : Option EntryPrices
  entry_spread : Option ℚ
  exit_target : Option ℚ
  status : Option String
  current_exit_spread : Option ℚ
  spread_history : Option (List ℚ)
  update_count : Option ℕ
deriving DecidableEq, Repr

/-- Lines 202–204 of `Position.from_dict`: the loaded `spread_history` is
kept only when it is a non-empty list, otherwise it is re-seeded with the
entry spread. -/
def normalized_history (entry_spread : ℚ) : Option (List ℚ) → List ℚ
  | some (h :: t) => h :: t
  | _ => [entry_spread]

/-- Lines 206–217 of `Position.from_dict`: the restored
`current_exit_spread`.  When the field is absent, the last sample of the
normalised history is used if that history has more than one entry,
otherwise `exit_target - 1.0`. -/
def restored_exit_spread (exit_target : ℚ) (hist : List ℚ) : Option ℚ → ℚ
  | some v => v
  | none => if 1 < hist.length then hist.getLastD 0 else exit_target - 1

/-- `Position.from_dict` (core/arbitrage_engine.py lines 172–258).
`now` stands for `time.time()` (the default for a missing `entry_time`).
Statuses are stored lowercase, so the `.lower()` call is the identity here. -/
def from_dict (now : ℚ) (r : PositionRecord) : Position :=
  let entry_spread := r.entry_spread.getD 0
  let exit_target := r.exit_target.getD 0
  let spread_history := normalized_history entry_spread r.spread_history
  let current_exit_spread :=
    restored_exit_spread exit_target spread_history r.current_exit_spread
  { id := r.id
    direction := r.direction.getD TradeDirection.H_TO_B
    entry_time := r.entry_time.getD now
    contracts := r.contracts.getD 0
    entry_prices := r.entry_prices.getD ⟨0, 0⟩
    entry_spread := entry_spread
    exit_target := exit_target
    status := r.status.getD "open"
    current_exit_spread := current_exit_spread
    spread_history := spread_history
    update_count := r.update_count.getD (spread_history.length - 1) }

/-! ### RiskManager (`core/risk_manager.py`) -/

/-- `RISK_CONFIG` (config.py lines 37–43). -/
structure RiskConfig where
  MAX_POSITION_CONTRACTS : ℚ
  MIN_ORDER_CONTRACTS : ℚ
  MAX_DAILY_LOSS : ℚ
  MAX_SLIPPAGE : ℚ
  SAFETY_MULTIPLIER : ℚ
deriving DecidableEq, Repr

/-- The literal values of `RISK_CONFIG` in config.py. -/
def RISK_CONFIG : RiskConfig :=
  { MAX_POSITION_CONTRACTS := 2/100
    MIN_ORDER_CONTRACTS := 1/100
    MAX_DAILY_LOSS := 100
    MAX_SLIPPAGE := 1/10000
    SAFETY_MULTIPLIER := 8/10 }

/-- The subset of `TRADING_CONFIG` (config.py lines 46–75) read by the
embedded functions. -/
structure TradingConfig where
  MIN_SPREAD_ENTER : ℚ
  MIN_SPREAD_EXIT : ℚ
  MARKET_SLIPPAGE : ℚ
  MIN_ORDER_INTERVAL : ℚ
  FEES_bitget : ℚ
  FEES_hyperliquid : ℚ
deriving DecidableEq, Repr

/-- The literal values of `TRADING_CONFIG` in config.py. -/
def TRADING_CONFIG : TradingConfig :=
  { MIN_SPREAD_ENTER := 1/1000
    MIN_SPREAD_EXIT := -1/5000
    MARKET_SLIPPAGE := 1/10000
    MIN_ORDER_INTERVAL := 3
    FEES_bitget := 6/100000
    FEES_hyperliquid := 5/100000 }

/-- The fields of the daily risk stats record used by
`RiskManager.can_open_position`. -/
structure DailyStats where
  total_loss : ℚ
  daily_limit_exceeded : Bool
deriving DecidableEq, Repr

/-- The rejection/acceptance reasons produced by
`RiskManager.can_open_position`; constructors carry the numbers the code
interpolates into its f-strings. -/
inductive RejectReason where
  | ok
  | dailyLimitExceeded
  | dailyLimitReached
  | spreadTooLow (spread minSpreadPercent : ℚ)
  | maxPositionNonpositive
  | maxPositionReached (current maxContracts : ℚ)
  | noCapacity
  | slippageTooHigh (slippage maxSlippage : ℚ)
deriving DecidableEq, Repr

/-- The reason strings of `can_open_position`; for reasons whose message
interpolates numbers with `%.3f`/`%.4f` formatting only the constant head of
the message is given. -/
def reasonMessage : RejectReason → String
  | RejectReason.ok => "OK"
  | RejectReason.dailyLimitExceeded => "Daily loss limit exceeded"
  | RejectReason.dailyLimitReached => "Daily loss limit reached"
  | RejectReason.spreadTooLow _ _ => "Spread too low"
  | RejectReason.maxPositionNonpositive => "Max position size is zero or negative"
  | RejectReason.maxPositionReached _ _ => "Max position reached"
  | RejectReason.noCapacity => "No capacity for minimal order"
  | RejectReason.slippageTooHigh _ _ => "Slippage too high"

/-- `RiskManager.can_open_position` (core/risk_manager.py lines 57–114).
Returns the `(allowed, reason)` pair together with the updated daily stats
(check 2 latches `daily_limit_exceeded` before rejecting).  `direction` and
`price` are parameters of the Python function that its body never reads. -/
def can_open_position (rcfg : RiskConfig) (tcfg : TradingConfig)
    (stats : DailyStats) (session_loss : ℚ) (_direction : TradeDirection)
    (spread _price current_position_contracts slippage : ℚ) :
    (Bool × RejectReason) × DailyStats :=
  if stats.daily_limit_exceeded then
    ((false, RejectReason.dailyLimitExceeded), stats)
  else
    let current_daily_loss := stats.total_loss + session_loss
    if |current_daily_loss| ≥ rcfg.MAX_DAILY_LOSS then
      ((false, RejectReason.dailyLimitReached), { stats with daily_limit_exceeded := true })
    else
      let min_spread_percent := tcfg.MIN_SPREAD_ENTER * 100
      if spread < min_spread_percent then
        ((false, RejectReason.spreadTooLow spread min_spread_percent), stats)
      else if rcfg.MAX_POSITION_CONTRACTS ≤ 0 then
        ((false, RejectReason.maxPositionNonpositive), stats)
      else if current_position_contracts ≥ rcfg.MAX_POSITION_CONTRACTS then
        ((false, RejectReason.maxPositionReached current_position_contracts
            rcfg.MAX_POSITION_CONTRACTS), stats)
      else if current_position_contracts + rcfg.MIN_ORDER_CONTRACTS >
          rcfg.MAX_POSITION_CONTRACTS + 1/10000 then
        ((false, RejectReason.noCapacity), stats)
      else if slippage > rcfg.MAX_SLIPPAGE then
        ((false, RejectReason.slippageTooHigh slippage rcfg.MAX_SLIPPAGE), stats)
      else
        ((true, RejectReason.ok), stats)

/-- Result dict of `RiskManager.calculate_position_size`. -/
structure PositionSizeResult where
  contracts : ℚ
  usd_value : ℚ
  can_add : Bool
deriving DecidableEq, Repr

/-- `RiskManager.calculate_position_size` (core/risk_manager.py lines
131–173).  `spread` is accepted but unread, as in the source. -/
def calculate_position_size (rcfg : RiskConfig) (price _spread
    current_position_contracts : ℚ) : PositionSizeResult :=
  let max_contracts := rcfg.MAX_POSITION_CONTRACTS
  let min_order := rcfg.MIN_ORDER_CONTRACTS
  let remaining_capacity := max_contracts - current_position_contracts
  if remaining_capacity ≤ 0 then
    { contracts := 0, usd_value := 0, can_add := false }
  else
    let order_contracts := min min_order remaining_capacity
    let scaled := order_contracts * rcfg.SAFETY_MULTIPLIER
    let safe_contracts :=
      if scaled < min_order ∧ min_order ≤ remaining_capacity then min_order
      else scaled
    { contracts := safe_contracts, usd_value := price * safe_contracts, can_add := true }

/-! ### Claim C2: admission check ordering in `can_open_position` -/

/-- C2: `can_open_position` evaluates its admission checks in the fixed
order (1) latched daily limit, (2) accrued daily loss at/over the limit
(latching the flag), (3) spread below threshold, (4) max position size ≤ 0,
(5) position full, (6) no capacity for even the minimum order (epsilon
0.0001), (7) slippage too high; the first failing check determines the
result, and whenever the latch is already set the result is
`(false, "Daily loss limit exceeded")` for every input. -/
theorem c2_check_order (rcfg : RiskConfig) (tcfg : TradingConfig)
    (stats : DailyStats) (sl : ℚ) (d : TradeDirection) (spread price cur slip : ℚ) :
    (stats.daily_limit_exceeded = true →
      can_open_position rcfg tcfg stats sl d spread price cur slip =
        ((false, RejectReason.dailyLimitExceeded), stats) ∧
      reasonMessage RejectReason.dailyLimitExceeded = "Daily loss limit exceeded") ∧
    (stats.daily_limit_exceeded = false →
      |stats.total_loss + sl| ≥ rcfg.MAX_DAILY_LOSS →
      can_open_position rcfg tcfg stats sl d spread price cur slip =
        ((false, RejectReason.dailyLimitReached),
          { stats with daily_limit_exceeded := true })) ∧
    (stats.daily_limit_exceeded = false →
      |stats.total_loss + sl| < rcfg.MAX_DAILY_LOSS →
      spread < tcfg.MIN_SPREAD_ENTER * 100 →
      can_open_position rcfg tcfg stats sl d spread price cur slip =
        ((false, RejectReason.spreadTooLow spread (tcfg.MIN_SPREAD_ENTER * 100)), stats)) ∧
    (stats.daily_limit_exceeded = false →
      |stats.total_loss + sl| < rcfg.MAX_DAILY_LOSS →
      tcfg.MIN_SPREAD_ENTER * 100 ≤ spread →
      rcfg.MAX_POSITION_CONTRACTS ≤ 0 →
      can_open_position rcfg tcfg stats sl d spread price cur slip =
        ((false, RejectReason.maxPositionNonpositive), stats)) ∧
    (stats.daily_limit_exceeded = false →
      |stats.total_loss + sl| < rcfg.MAX_DAILY_LOSS →
      tcfg.MIN_SPREAD_ENTER * 100 ≤ spread →
      0 < rcfg.MAX_POSITION_CONTRACTS →
      rcfg.MAX_POSITION_CONTRACTS ≤ cur →
      can_open_position rcfg tcfg stats sl d spread price cur slip =
        ((false, RejectReason.maxPositionReached cur rcfg.MAX_POSITION_CONTRACTS), stats)) ∧
    (stats.daily_limit_exceeded = false →
      |stats.total_loss + sl| < rcfg.MAX_DAILY_LOSS →
      tcfg.MIN_SPREAD_ENTER * 100 ≤ spread →
      0 < rcfg.MAX_POSITION_CONTRACTS →
      cur < rcfg.MAX_POSITION_CONTRACTS →
      rcfg.MAX_POSITION_CONTRACTS + 1/10000 < cur + rcfg.MIN_ORDER_CONTRACTS →
      can_open_position rcfg tcfg stats sl d spread price cur slip =
        ((false, RejectReason.noCapacity), stats)) ∧
    (stats.daily_limit_exceeded = false →
      |stats.total_loss + sl| < rcfg.MAX_DAILY_LOSS →
      tcfg.MIN_SPREAD_ENTER * 100 ≤ spread →
      0 < rcfg.MAX_POSITION_CONTRACTS →
      cur < rcfg.MAX_POSITION_CONTRACTS →
      cur + rcfg.MIN_ORDER_CONTRACTS ≤ rcfg.MAX_POSITION_CONTRACTS + 1/10000 →
      rcfg.MAX_SLIPPAGE < slip →
      can_open_position rcfg tcfg stats sl d spread price cur slip =
        ((false, RejectReason.slippageTooHigh slip rcfg.MAX_SLIPPAGE), stats)) ∧
    (stats.daily_limit_exceeded = false →
      |stats.total_loss + sl| < rcfg.MAX_DAILY_LOSS →
      tcfg.MIN_SPREAD_ENTER * 100 ≤ spread →
      0 < rcfg.MAX_POSITION_CONTRACTS →
      cur < rcfg.MAX_POSITION_CONTRACTS →
      cur + rcfg.MIN_ORDER_CONTRACTS ≤ rcfg.MAX_POSITION_CONTRACTS + 1/10000 →
      slip ≤ rcfg.MAX_SLIPPAGE →
      can_open_position rcfg tcfg stats sl d spread price cur slip =
        ((true, RejectReason.ok), stats)) := by
  refine ⟨?_, ?_, ?_, ?_, ?_, ?_, ?_, ?_⟩
  · intro h1
    exact ⟨by simp [can_open_position, h1], rfl⟩
  · intro h1 h2
    simp [can_open_position, h1, h2]
  · intro h1 h2 h3
    simp [can_open_position, h1, not_le.mpr h2, h3]
  · intro h1 h2 h3 h4
    simp [can_open_position, h1, not_le.mpr h2, not_lt.mpr h3, h4]
  · intro h1 h2 h3 h4 h5
    simp [can_open_position, h1, not_le.mpr h2, not_lt.mpr h3, not_le.mpr h4,
      le_of_lt h4, h5]
  · intro h1 h2 h3 h4 h5 h6
    simp only [can_open_position, h1, Bool.false_eq_true, if_false]
    split_ifs <;> first | rfl | (exfalso; linarith)
  · intro h1 h2 h3 h4 h5 h6 h7
    simp only [can_open_position, h1, Bool.false_eq_true, if_false]
    split_ifs <;> first | rfl | (exfalso; linarith)
  · intro h1 h2 h3 h4 h5 h6 h7
    simp only [can_open_position, h1, Bool.false_eq_true, if_false]
    split_ifs <;> first | rfl | (exfalso; linarith)

/-- C2 witness: a concrete latched state is rejected with the exact message,
whatever the market inputs look like. -/
theorem c2_witness :
    can_open_position RISK_CONFIG TRADING_CONFIG
        { total_loss := 0, daily_limit_exceeded := true } 0 TradeDirection.B_TO_H
        5 100 0 0 =
      ((false, RejectReason.dailyLimitExceeded),
        { total_loss := 0, daily_limit_exceeded := true }) ∧
    reasonMessage RejectReason.dailyLimitExceeded = "Daily loss limit exceeded" :=
  (c2_check_order RISK_CONFIG TRADING_CONFIG
    { total_loss := 0, daily_limit_exceeded := true } 0 TradeDirection.B_TO_H
    5 100 0 0).1 rfl

/-! ### Claim C3: `should_close` boundary behaviour -/

/-- C3: `should_close` is true iff `current_exit_spread ≥ exit_target − 0.001`
(epsilon 0.001 percentage points); in particular the boundary case
`current_exit_spread = exit_target` closes. -/
theorem c3_should_close (p : Position) :
    (should_close p = true ↔ p.exit_target - 1/1000 ≤ p.current_exit_spread) ∧
    (p.current_exit_spread = p.exit_target → should_close p = true) := by
  constructor
  · simp [should_close]
  · intro h
    simp only [should_close, h, decide_eq_true_eq]
    linarith

/-- C3 witness: the boundary case at a concrete position. -/
theorem c3_witness :
    should_close
      { id := "pos_000000", direction := TradeDirection.B_TO_H, entry_time := 0
        contracts := 1/50, entry_prices := ⟨100, 101/1⟩, entry_spread := 1/2
        exit_target := -1/50, status := "open", current_exit_spread := -1/50
        spread_history := [1/2], update_count := 0 } = true :=
  (c3_should_close _).2 rfl

/-! ### Claim C6: `calculate_position_size` respects capacity -/

/-- A configuration with positive `MAX_POSITION_CONTRACTS` (0.02) and
`MIN_ORDER_CONTRACTS` (0.01) but `SAFETY_MULTIPLIER` 2, used to refute the
capacity bound as quantified over every such configuration. -/
def c6_bad_config : RiskConfig :=
  { MAX_POSITION_CONTRACTS := 2/100
    MIN_ORDER_CONTRACTS := 1/100
    MAX_DAILY_LOSS := 100
    MAX_SLIPPAGE := 1/10000
    SAFETY_MULTIPLIER := 2 }

/-- C6 counterexample: with multiplier 2, max 0.02, min order 0.01 and a
current position of 0.01 (all the claim's side conditions hold), the clip is
`min(0.01, 0.01) * 2 = 0.02` — the floor branch does not fire since
`0.02 < 0.01` is false — and `current + size = 0.03 > 0.02`, so the claim
fails for this configuration. -/
theorem c6_counterexample :
    (0 : ℚ) < c6_bad_config.MAX_POSITION_CONTRACTS ∧
    (0 : ℚ) < c6_bad_config.MIN_ORDER_CONTRACTS ∧
    (0 : ℚ) ≤ 1/100 ∧ (1/100 : ℚ) ≤ c6_bad_config.MAX_POSITION_CONTRACTS ∧
    (calculate_position_size c6_bad_config 171 (1/2) (1/100)).contracts = 2/100 ∧
    ¬ ((1/100 : ℚ) + (calculate_position_size c6_bad_config 171 (1/2) (1/100)).contracts ≤
        c6_bad_config.MAX_POSITION_CONTRACTS) := by
  refine ⟨?_, ?_, ?_, ?_, ?_, ?_⟩ <;>
    norm_num [calculate_position_size, c6_bad_config]

/-- C6 (amended): for positive `MAX_POSITION_CONTRACTS` and
`MIN_ORDER_CONTRACTS`, a safety multiplier at most 1 (the repository config
sets 0.8; multipliers above 1 violate the bound, see the counterexample),
and `0 ≤ current ≤ max`, the proposed clip never overshoots:
`current + contracts ≤ MAX_POSITION_CONTRACTS`. -/
theorem c6_size_bounded (rcfg : RiskConfig) (price spread cur : ℚ)
    (hmax : 0 < rcfg.MAX_POSITION_CONTRACTS)
    (hmin : 0 < rcfg.MIN_ORDER_CONTRACTS)
    (hmult : rcfg.SAFETY_MULTIPLIER ≤ 1)
    (hcur0 : 0 ≤ cur) (hcur : cur ≤ rcfg.MAX_POSITION_CONTRACTS) :
    cur + (calculate_position_size rcfg price spread cur).contracts ≤
      rcfg.MAX_POSITION_CONTRACTS := by
  simp only [calculate_position_size]
  split_ifs with h0 hfl
  · simpa using hcur
  · simpa using by linarith [hfl.2]
  · have hminnn : 0 ≤ min rcfg.MIN_ORDER_CONTRACTS (rcfg.MAX_POSITION_CONTRACTS - cur) := by
      push_neg at h0
      exact le_min (le_of_lt hmin) (le_of_lt h0)
    have h1 : min rcfg.MIN_ORDER_CONTRACTS (rcfg.MAX_POSITION_CONTRACTS - cur) *
        rcfg.SAFETY_MULTIPLIER ≤
        min rcfg.MIN_ORDER_CONTRACTS (rcfg.MAX_POSITION_CONTRACTS - cur) :=
      mul_le_of_le_one_right hminnn hmult
    have h2 : min rcfg.MIN_ORDER_CONTRACTS (rcfg.MAX_POSITION_CONTRACTS - cur) ≤
        rcfg.MAX_POSITION_CONTRACTS - cur := min_le_right _ _
    simpa using by linarith

/-- C6 witness: with the repository config and current position 0.015 the
proposed clip is 0.004 and the total stays within 0.02. -/
theorem c6_witness :
    (0 : ℚ) < RISK_CONFIG.MAX_POSITION_CONTRACTS ∧
    (0 : ℚ) < RISK_CONFIG.MIN_ORDER_CONTRACTS ∧
    RISK_CONFIG.SAFETY_MULTIPLIER ≤ 1 ∧
    (3/200 : ℚ) + (calculate_position_size RISK_CONFIG 171 (1/2) (3/200)).contracts ≤
      RISK_CONFIG.MAX_POSITION_CONTRACTS :=
  ⟨by norm_num [RISK_CONFIG], by norm_num [RISK_CONFIG], by norm_num [RISK_CONFIG],
    c6_size_bounded RISK_CONFIG 171 (1/2) (3/200) (by norm_num [RISK_CONFIG])
      (by norm_num [RISK_CONFIG]) (by norm_num [RISK_CONFIG]) (by norm_num)
      (by norm_num [RISK_CONFIG])⟩

/-! ### Claim C9: restored `current_exit_spread` default on load -/

/-- A persisted record whose `current_exit_spread` is absent but whose
`spread_history` carries two samples (a shape `_save_positions` always
writes once a position has had a market update). -/
def c9_record : PositionRecord :=
  { id := "pos_000001", direction := some TradeDirection.B_TO_H
    entry_time := some 0, contracts := some (1/50)
    entry_prices := some ⟨100, 101⟩, entry_spread := some (1/2)
    exit_target := some 0, status := some "open"
    current_exit_spread := none, spread_history := some [1/2, 2]
    update_count := some 1 }

/-- C9 counterexample: on this record the restored `current_exit_spread` is
the last history sample (2), not `exit_target − 1.0` (−1), and the restored
position immediately satisfies `should_close`. -/
theorem c9_counterexample :
    (from_dict 0 c9_record).current_exit_spread = 2 ∧
    (from_dict 0 c9_record).current_exit_spread ≠
      (from_dict 0 c9_record).exit_target - 1 ∧
    should_close (from_dict 0 c9_record) = true := by
  refine ⟨?_, ?_, ?_⟩ <;>
    norm_num [from_dict, c9_record, should_close, normalized_history,
      restored_exit_spread]

/-- C9 (amended): when `current_exit_spread` is absent, the restored value is
the last entry of the (normalised) `spread_history` whenever that history has
more than one sample; only when it has at most one sample does it default to
`exit_target − 1.0`, and in that case the restored position cannot
immediately satisfy `should_close`. -/
theorem c9_amended_default (now : ℚ) (r : PositionRecord)
    (h : r.current_exit_spread = none) :
    ((from_dict now r).spread_history.length ≤ 1 →
      (from_dict now r).current_exit_spread = (from_dict now r).exit_target - 1 ∧
      should_close (from_dict now r) = false) ∧
    (1 < (from_dict now r).spread_history.length →
      (from_dict now r).current_exit_spread =
        (from_dict now r).spread_history.getLastD 0) := by
  have ehist : (from_dict now r).spread_history =
      normalized_history (r.entry_spread.getD 0) r.spread_history := rfl
  have etarget : (from_dict now r).exit_target = r.exit_target.getD 0 := rfl
  have ecur : (from_dict now r).current_exit_spread =
      restored_exit_spread (r.exit_target.getD 0)
        (normalized_history (r.entry_spread.getD 0) r.spread_history)
        r.current_exit_spread := rfl
  rw [h] at ecur
  simp only [restored_exit_spread] at ecur
  constructor
  · intro hlen
    rw [ehist] at hlen
    have hnot : ¬ 1 < (normalized_history (r.entry_spread.getD 0) r.spread_history).length :=
      not_lt.mpr hlen
    rw [if_neg hnot] at ecur
    refine ⟨by rw [ecur, etarget], ?_⟩
    simp only [should_close, ecur, etarget]
    rw [decide_eq_false_iff_not]
    intro hcontra
    linarith
  · intro hlen
    rw [ehist] at hlen
    rw [if_pos hlen] at ecur
    rw [ecur, ehist]

/-- C9 witness: a record with a single-sample history restores to
`exit_target − 1.0` and does not immediately close. -/
theorem c9_witness :
    (from_dict 0
        { id := "pos_000002", direction := some TradeDirection.H_TO_B
          entry_time := some 0, contracts := some (1/100)
          entry_prices := some ⟨100, 101⟩, entry_spread := some (3/10)
          exit_target := some (-1/50), status := some "open"
          current_exit_spread := none, spread_history := some [3/10]
          update_count := some 0 }).current_exit_spread =
      (from_dict 0
        { id := "pos_000002", direction := some TradeDirection.H_TO_B
          entry_time := some 0, contracts := some (1/100)
          entry_prices := some ⟨100, 101⟩, entry_spread := some (3/10)
          exit_target := some (-1/50), status := some "open"
          current_exit_spread := none, spread_history := some [3/10]
          update_count := some 0 }).exit_target - 1 ∧
    should_close (from_dict 0
        { id := "pos_000002", direction := some TradeDirection.H_TO_B
          entry_time := some 0, contracts := some (1/100)
          entry_prices := some ⟨100, 101⟩, entry_spread := some (3/10)
          exit_target := some (-1/50), status := some "open"
          current_exit_spread := none, spread_history := some [3/10]
          update_count := some 0 }) = false :=
  (c9_amended_default 0 _ rfl).1 (by norm_num [from_dict, normalized_history])

/-! ### ArbitrageEngine spread computation (`core/arbitrage_engine.py`) -/

/-- A market-data dict as passed to the engine; each of `bid`/`ask` may be
absent.  A falsy (absent/empty) dict argument is embedded as `none` at the
call sites. -/
structure Ticker where
  bid : Option ℚ
  ask : Option ℚ
deriving DecidableEq, Repr

/-- A slippage dict `{'buy': …, 'sell': …}` with possibly missing keys. -/
structure SlippagePair where
  buy : Option ℚ
  sell : Option ℚ
deriving DecidableEq, Repr

/-- The slippage-selection preamble shared by the spread functions
(e.g. core/arbitrage_engine.py lines 633–646): a falsy slippage dict falls
back to `MARKET_SLIPPAGE` for both sides, a present dict is read with
`MARKET_SLIPPAGE` as the per-key default. -/
def slippage_of (market_slippage : ℚ) : Option SlippagePair → ℚ × ℚ
  | some sp => (sp.buy.getD market_slippage, sp.sell.getD market_slippage)
  | none => (market_slippage, market_slippage)

/-- `ArbitrageEngine.calculate_exit_spread` (core/arbitrage_engine.py lines
615–665).  Missing dicts or missing bid/ask keys return the position's
previous `current_exit_spread`; with full data the gross exit spread is
computed, falling back to `0.0` when the slippage-adjusted exit buy price is
not positive. -/
def calculate_exit_spread (tcfg : TradingConfig) (position : Position)
    (bitget_data hyper_data : Option Ticker)
    (bitget_slippage hyper_slippage : Option SlippagePair) : ℚ :=
  match bitget_data, hyper_data with
  | some bgd, some hld =>
    match bgd.bid, bgd.ask, hld.bid, hld.ask with
    | some bg_bid, some bg_ask, some hl_bid, some hl_ask =>
      let bslip := slippage_of tcfg.MARKET_SLIPPAGE bitget_slippage
      let hslip := slippage_of tcfg.MARKET_SLIPPAGE hyper_slippage
      let prices : ℚ × ℚ :=
        match position.direction with
        | TradeDirection.B_TO_H => (hl_ask * (1 + hslip.1), bg_bid * (1 - bslip.2))
        | TradeDirection.H_TO_B => (bg_ask * (1 + bslip.1), hl_bid * (1 - hslip.2))
      if 0 < prices.1 then (prices.2 / prices.1 - 1) * 100 else 0
    | _, _, _, _ => position.current_exit_spread
  | _, _ => position.current_exit_spread

/-! ### Claim C4: exit-spread fallback on missing data -/

/-- C4 (amended): `calculate_exit_spread` returns the previous
`current_exit_spread` unchanged when either market-data dict is absent or
lacks a `bid`/`ask` key; but when both books carry bid and ask it always
computes, and if the slippage-adjusted exit buy price is not positive it
returns `0.0` — a default that can trigger a false close — rather than the
previous value. -/
theorem c4_missing_data_fallback (tcfg : TradingConfig) (p : Position)
    (bg hl : Option Ticker) (bs hs : Option SlippagePair) :
    (bg = none ∨ hl = none →
      calculate_exit_spread tcfg p bg hl bs hs = p.current_exit_spread) ∧
    (∀ t u, bg = some t → hl = some u →
      (t.bid = none ∨ t.ask = none ∨ u.bid = none ∨ u.ask = none) →
      calculate_exit_spread tcfg p bg hl bs hs = p.current_exit_spread) ∧
    (∀ bg_bid bg_ask hl_bid hl_ask, bg = some ⟨some bg_bid, some bg_ask⟩ →
      hl = some ⟨some hl_bid, some hl_ask⟩ →
      (p.direction = TradeDirection.B_TO_H →
        hl_ask * (1 + (slippage_of tcfg.MARKET_SLIPPAGE hs).1) ≤ 0 →
        calculate_exit_spread tcfg p bg hl bs hs = 0) ∧
      (p.direction = TradeDirection.H_TO_B →
        bg_ask * (1 + (slippage_of tcfg.MARKET_SLIPPAGE bs).1) ≤ 0 →
        calculate_exit_spread tcfg p bg hl bs hs = 0)) := by
  refine ⟨?_, ?_, ?_⟩
  · rintro (rfl | rfl)
    · cases hl <;> rfl
    · cases bg <;> rfl
  · rintro ⟨tb, ta⟩ ⟨ub, ua⟩ rfl rfl hmiss
    cases tb <;> cases ta <;> cases ub <;> cases ua <;>
      first
        | rfl
        | (rcases hmiss with h | h | h | h <;> simp_all)
  · rintro bg_bid bg_ask hl_bid hl_ask rfl rfl
    constructor
    · intro hdir hle
      simp only [calculate_exit_spread, hdir]
      rw [if_neg (not_lt.mpr hle)]
    · intro hdir hle
      simp only [calculate_exit_spread, hdir]
      rw [if_neg (not_lt.mpr hle)]

/-- The concrete position used in the C4 counterexample: previous exit
spread −1 (far from closing), exit target −0.02. -/
def c4_position : Position :=
  { id := "pos_000003", direction := TradeDirection.B_TO_H, entry_time := 0
    contracts := 1/50, entry_prices := ⟨100, 101⟩, entry_spread := 1/2
    exit_target := -1/50, status := "open", current_exit_spread := -1
    spread_history := [1/2, -1], update_count := 1 }

/-- C4 counterexample: with both books present but Hyperliquid quoting a
zero ask, `calculate_exit_spread` returns `0.0` instead of the previous
`current_exit_spread` (−1), and that zero does flip `should_close` for this
position — so the function can return a zero default that triggers a false
close. -/
theorem c4_counterexample :
    calculate_exit_spread TRADING_CONFIG c4_position
        (some ⟨some 100, some 100⟩) (some ⟨some 0, some 0⟩) none none = 0 ∧
    c4_position.current_exit_spread = -1 ∧
    (0 : ℚ) ≠ c4_position.current_exit_spread ∧
    should_close { c4_position with current_exit_spread := 0 } = true ∧
    should_close c4_position = false := by
  refine ⟨?_, rfl, by norm_num [c4_position], ?_, ?_⟩
  · norm_num [calculate_exit_spread, c4_position, slippage_of, TRADING_CONFIG]
  · norm_num [should_close, c4_position]
  · norm_num [should_close, c4_position]

/-- C4 witness: with the Bitget dict absent the previous exit spread is
passed through unchanged. -/
theorem c4_witness :
    calculate_exit_spread TRADING_CONFIG c4_position none
        (some ⟨some 100, some 101⟩) none none = c4_position.current_exit_spread :=
  (c4_missing_data_fallback TRADING_CONFIG c4_position none
    (some ⟨some 100, some 101⟩) none none).1 (Or.inl rfl)

/-! ### Claim C5: PnL and fee accounting (`calculate_trade_pnl`) -/

/-- The result dict of `ArbitrageEngine.calculate_trade_pnl` (the
`trade_summary` sub-dict, which repeats other fields, is omitted). -/
structure PnlResult where
  gross : ℚ
  fees : ℚ
  net : ℚ
  return_percent : ℚ
  fee_entry_buy : ℚ
  fee_entry_sell : ℚ
  fee_exit_buy : ℚ
  fee_exit_sell : ℚ
deriving DecidableEq, Repr

/-- `ArbitrageEngine.calculate_trade_pnl` (core/arbitrage_engine.py lines
939–997).  `exit_buy_price`/`exit_sell_price` are the prices carried by
`exit_result['buy_order']`/`exit_result['sell_order']`. -/
def calculate_trade_pnl (tcfg : TradingConfig) (position : Position)
    (exit_buy_price exit_sell_price : ℚ) : PnlResult :=
  let entry_buy_price := position.entry_prices.buy
  let entry_sell_price := position.entry_prices.sell
  let contracts := position.contracts
  let entry_leg := (entry_sell_price - entry_buy_price) * contracts
  let exit_leg := (exit_sell_price - exit_buy_price) * contracts
  let gross_pnl := entry_leg + exit_leg
  let fee4 :=
    match position.direction with
    | TradeDirection.B_TO_H =>
        (entry_buy_price * contracts * tcfg.FEES_bitget,
         entry_sell_price * contracts * tcfg.FEES_hyperliquid,
         exit_buy_price * contracts * tcfg.FEES_hyperliquid,
         exit_sell_price * contracts * tcfg.FEES_bitget)
    | TradeDirection.H_TO_B =>
        (entry_buy_price * contracts * tcfg.FEES_hyperliquid,
         entry_sell_price * contracts * tcfg.FEES_bitget,
         exit_buy_price * contracts * tcfg.FEES_bitget,
         exit_sell_price * contracts * tcfg.FEES_hyperliquid)
  let total_fees := fee4.1 + fee4.2.1 + fee4.2.2.1 + fee4.2.2.2
  let net_pnl := gross_pnl - total_fees
  let return_percent :=
    if 0 < entry_buy_price * contracts then net_pnl / (entry_buy_price * contracts) * 100
    else 0
  { gross := gross_pnl, fees := total_fees, net := net_pnl
    return_percent := return_percent
    fee_entry_buy := fee4.1, fee_entry_sell := fee4.2.1
    fee_exit_buy := fee4.2.2.1, fee_exit_sell := fee4.2.2.2 }

/-- C5: for a closed position (non-negative entry buy price and contracts),
gross PnL is the sum of the two legs, fees are charged on all four legs at
the rate of the exchange each leg executed on (mapping by direction,
reversed on exit), net = gross − fees, and the return percent is
net / (entryBuy × contracts) × 100, or 0 when that denominator is zero. -/
theorem c5_pnl_accounting (tcfg : TradingConfig) (p : Position)
    (xb xs : ℚ) (hb : 0 ≤ p.entry_prices.buy) (hc : 0 ≤ p.contracts) :
    (calculate_trade_pnl tcfg p xb xs).gross =
      (p.entry_prices.sell - p.entry_prices.buy) * p.contracts +
        (xs - xb) * p.contracts ∧
    (p.direction = TradeDirection.B_TO_H →
      (calculate_trade_pnl tcfg p xb xs).fees =
        p.entry_prices.buy * p.contracts * tcfg.FEES_bitget +
        p.entry_prices.sell * p.contracts * tcfg.FEES_hyperliquid +
        xb * p.contracts * tcfg.FEES_hyperliquid +
        xs * p.contracts * tcfg.FEES_bitget) ∧
    (p.direction = TradeDirection.H_TO_B →
      (calculate_trade_pnl tcfg p xb xs).fees =
        p.entry_prices.buy * p.contracts * tcfg.FEES_hyperliquid +
        p.entry_prices.sell * p.contracts * tcfg.FEES_bitget +
        xb * p.contracts * tcfg.FEES_bitget +
        xs * p.contracts * tcfg.FEES_hyperliquid) ∧
    (calculate_trade_pnl tcfg p xb xs).net =
      (calculate_trade_pnl tcfg p xb xs).gross -
        (calculate_trade_pnl tcfg p xb xs).fees ∧
    (p.entry_prices.buy * p.contracts = 0 →
      (calculate_trade_pnl tcfg p xb xs).return_percent = 0) ∧
    (p.entry_prices.buy * p.contracts ≠ 0 →
      (calculate_trade_pnl tcfg p xb xs).return_percent =
        (calculate_trade_pnl tcfg p xb xs).net /
          (p.entry_prices.buy * p.contracts) * 100) := by
  have hnn : 0 ≤ p.entry_prices.buy * p.contracts := mul_nonneg hb hc
  refine ⟨?_, ?_, ?_, ?_, ?_, ?_⟩
  · rfl
  · intro hdir
    simp only [calculate_trade_pnl, hdir]
  · intro hdir
    simp only [calculate_trade_pnl, hdir]
  · rfl
  · intro hzero
    simp only [calculate_trade_pnl]
    rw [if_neg (by rw [hzero]; exact lt_irrefl 0)]
  · intro hne
    have hpos : 0 < p.entry_prices.buy * p.contracts := lt_of_le_of_ne hnn (Ne.symm hne)
    simp only [calculate_trade_pnl]
    rw [if_pos hpos]

/-- C5 witness: a concrete B→H round trip (entry 100→101, exit 100.5→100.8,
0.02 contracts) with the repository fee schedule. -/
theorem c5_witness :
    (0 : ℚ) ≤ c4_position.entry_prices.buy ∧ (0 : ℚ) ≤ c4_position.contracts ∧
    (calculate_trade_pnl TRADING_CONFIG c4_position (201/2) (504/5)).gross =
      (c4_position.entry_prices.sell - c4_position.entry_prices.buy) *
        c4_position.contracts + (504/5 - 201/2) * c4_position.contracts ∧
    (calculate_trade_pnl TRADING_CONFIG c4_position (201/2) (504/5)).net =
      (calculate_trade_pnl TRADING_CONFIG c4_position (201/2) (504/5)).gross -
        (calculate_trade_pnl TRADING_CONFIG c4_position (201/2) (504/5)).fees ∧
    (calculate_trade_pnl TRADING_CONFIG c4_position (201/2) (504/5)).return_percent =
      (calculate_trade_pnl TRADING_CONFIG c4_position (201/2) (504/5)).net /
        (c4_position.entry_prices.buy * c4_position.contracts) * 100 := by
  have h := c5_pnl_accounting TRADING_CONFIG c4_position (201/2) (504/5)
    (by norm_num [c4_position]) (by norm_num [c4_position])
  exact ⟨by norm_num [c4_position], by norm_num [c4_position], h.1, h.2.2.2.1,
    h.2.2.2.2.2 (by norm_num [c4_position])⟩

/-! ### ArbitrageEngine entry search and execution (`core/arbitrage_engine.py`) -/

/-- The per-direction spread record produced by
`ArbitrageEngine.calculate_spreads` (the `slippage_used` sub-dict is carried
as the two slippage values actually stored; the `raw_prices` diagnostic
sub-dict is omitted). -/
structure SpreadInfo where
  gross_spread : ℚ
  buy_price : ℚ
  sell_price : ℚ
  buy_slippage : ℚ
  sell_slippage : ℚ
deriving DecidableEq, Repr

/-- `ArbitrageEngine.calculate_spreads` (core/arbitrage_engine.py lines
405–515): the gross entry spreads for the two directions (B→H first, H→B
second, matching the dict insertion order iterated by `find_opportunity`).
Missing dicts, missing bid/ask keys or any zero price yield `none` (the
empty dict in Python) — never a partial result. -/
def calculate_spreads (tcfg : TradingConfig)
    (bitget_data hyper_data : Option Ticker)
    (bitget_slippage hyper_slippage : Option SlippagePair) :
    Option (SpreadInfo × SpreadInfo) :=
  match bitget_data, hyper_data with
  | some bgd, some hld =>
    match bgd.bid, bgd.ask, hld.bid, hld.ask with
    | some bg_bid, some bg_ask, some hl_bid, some hl_ask =>
      if bg_bid = 0 ∨ bg_ask = 0 ∨ hl_bid = 0 ∨ hl_ask = 0 then none
      else
        let bslip := slippage_of tcfg.MARKET_SLIPPAGE bitget_slippage
        let hslip := slippage_of tcfg.MARKET_SLIPPAGE hyper_slippage
        let buy_price_bh := bg_ask * (1 + bslip.1)
        let sell_price_bh := hl_bid * (1 - hslip.2)
        let gross_spread_bh := (sell_price_bh / buy_price_bh - 1) * 100
        let buy_price_hb := hl_ask * (1 + hslip.1)
        let sell_price_hb := bg_bid * (1 - bslip.2)
        let gross_spread_hb := (sell_price_hb / buy_price_hb - 1) * 100
        some (⟨gross_spread_bh, buy_price_bh, sell_price_bh, bslip.1, hslip.2⟩,
              ⟨gross_spread_hb, buy_price_hb, sell_price_hb, hslip.1, bslip.2⟩)
    | _, _, _, _ => none
  | _, _ => none

/-- The engine aggregate state fields read and written by the entry path
(`ArbitrageEngine.__init__` lines 270–282). -/
structure EngineState where
  open_positions : List Position
  position_counter : ℕ
  last_order_time : ℚ
  total_volume : ℚ
deriving DecidableEq, Repr

/-- `ArbitrageEngine.get_open_positions` (lines 1003–1005). -/
def get_open_positions (es : EngineState) : List Position :=
  es.open_positions.filter (fun p => p.status = "open")

/-- `ArbitrageEngine.get_total_position_contracts` (lines 1007–1020):
sum of the contracts of the truly open positions, optionally restricted to
one direction. -/
def get_total_position_contracts (es : EngineState)
    (direction : Option TradeDirection) : ℚ :=
  ((get_open_positions es).filter
    (fun p => match direction with
      | none => true
      | some d => p.direction = d)).foldl (fun acc p => acc + p.contracts) 0

/-- One iteration of the direction loop in `find_opportunity` (lines
694–716): admit the direction when its gross spread clears the threshold and
the risk gate accepts; the risk-state (daily-limit latch) threads through. -/
def try_direction (rcfg : RiskConfig) (tcfg : TradingConfig)
    (session_loss min_spread_required current_contracts : ℚ)
    (d : TradeDirection) (data : SpreadInfo) (stats : DailyStats) :
    Option (TradeDirection × SpreadInfo) × DailyStats :=
  if data.gross_spread ≥ min_spread_required then
    let r := can_open_position rcfg tcfg stats session_loss d
      data.gross_spread data.buy_price current_contracts
      (max data.buy_slippage data.sell_slippage)
    if r.1.1 then (some (d, data), r.2) else (none, r.2)
  else (none, stats)

/-- `ArbitrageEngine.find_opportunity` (core/arbitrage_engine.py lines
667–717).  `now` stands for `time.time()`. -/
def find_opportunity (rcfg : RiskConfig) (tcfg : TradingConfig)
    (stats : DailyStats) (session_loss : ℚ) (es : EngineState) (now : ℚ)
    (bitget_data hyper_data : Option Ticker)
    (bitget_slippage hyper_slippage : Option SlippagePair) :
    Option (TradeDirection × SpreadInfo) × DailyStats :=
  if es.open_positions ≠ [] then (none, stats)
  else if now - es.last_order_time < tcfg.MIN_ORDER_INTERVAL then (none, stats)
  else
    match calculate_spreads tcfg bitget_data hyper_data bitget_slippage hyper_slippage with
    | none => (none, stats)
    | some (bh, hb) =>
      let min_spread_required := tcfg.MIN_SPREAD_ENTER * 100
      let current_contracts := get_total_position_contracts es none
      let r1 := try_direction rcfg tcfg session_loss min_spread_required
        current_contracts TradeDirection.B_TO_H bh stats
      match r1.1 with
      | some found => (some found, r1.2)
      | none => try_direction rcfg tcfg session_loss min_spread_required
          current_contracts TradeDirection.H_TO_B hb r1.2

/-! ### Claim C10: no entry search with open positions or inside the
order-interval window -/

/-- C10: `find_opportunity` returns no opportunity whenever the engine's
open-position list is non-empty (regardless of remaining capacity — so a
second incremental clip is never proposed while a position is open), and
likewise whenever less than `MIN_ORDER_INTERVAL` seconds have elapsed since
the last submitted order. -/
theorem c10_no_search_when_busy (rcfg : RiskConfig) (tcfg : TradingConfig)
    (stats : DailyStats) (sl : ℚ) (es : EngineState) (now : ℚ)
    (bg hl : Option Ticker) (bs hs : Option SlippagePair) :
    (es.open_positions ≠ [] →
      (find_opportunity rcfg tcfg stats sl es now bg hl bs hs).1 = none) ∧
    (now - es.last_order_time < tcfg.MIN_ORDER_INTERVAL →
      (find_opportunity rcfg tcfg stats sl es now bg hl bs hs).1 = none) := by
  constructor
  · intro h
    simp only [find_opportunity, if_pos h]
  · intro h
    by_cases hne : es.open_positions ≠ []
    · simp only [find_opportunity, if_pos hne]
    · simp only [find_opportunity, if_neg hne, if_pos h]

/-- C10 witness: with one open position (and, separately, with a fresh
order timestamp) the entry search returns nothing on a concrete market. -/
theorem c10_witness :
    (find_opportunity RISK_CONFIG TRADING_CONFIG
        { total_loss := 0, daily_limit_exceeded := false } 0
        { open_positions := [c4_position], position_counter := 4
          last_order_time := 0, total_volume := 2 } 100
        (some ⟨some 100, some (2001/20)⟩) (some ⟨some (201/2), some 101⟩)
        none none).1 = none ∧
    (find_opportunity RISK_CONFIG TRADING_CONFIG
        { total_loss := 0, daily_limit_exceeded := false } 0
        { open_positions := [], position_counter := 4
          last_order_time := 99, total_volume := 2 } 100
        (some ⟨some 100, some (2001/20)⟩) (some ⟨some (201/2), some 101⟩)
        none none).1 = none :=
  ⟨(c10_no_search_when_busy RISK_CONFIG TRADING_CONFIG
      { total_loss := 0, daily_limit_exceeded := false } 0
      { open_positions := [c4_position], position_counter := 4
        last_order_time := 0, total_volume := 2 } 100
      (some ⟨some 100, some (2001/20)⟩) (some ⟨some (201/2), some 101⟩)
      none none).1 (by simp),
   (c10_no_search_when_busy RISK_CONFIG TRADING_CONFIG
      { total_loss := 0, daily_limit_exceeded := false } 0
      { open_positions := [], position_counter := 4
        last_order_time := 99, total_volume := 2 } 100
      (some ⟨some 100, some (2001/20)⟩) (some ⟨some (201/2), some 101⟩)
      none none).2 (by norm_num [TRADING_CONFIG])⟩

/-! ### Execution coordinators (`core/live_executor.py`, `core/paper_executor.py`) -/

inductive Exchange where
  | bitget
  | hyperliquid
deriving DecidableEq, Repr

inductive Side where
  | buy
  | sell
deriving DecidableEq, Repr

/-- The fields of a single-leg order result consumed by the pair logic
(`success`, `error`, and for the paper executor the realized `price`, `fee`
and `amount` used by the rollback). -/
structure OrderResult where
  success : Bool
  error : String
  price : ℚ
  fee : ℚ
  amount : ℚ
deriving DecidableEq, Repr

/-- The joint result of a FOK pair: `success`, `error`, and the
`requires_manual_intervention` key (absent in Python ≙ `false` here,
matching how `.get` with a `False` default would read it). -/
structure FokResult where
  success : Bool
  error : String
  requires_manual_intervention : Bool
deriving DecidableEq, Repr

/-- `LiveTradeExecutor.execute_fok_pair_async` (core/live_executor.py lines
479–537).  The two network submissions
(`execute_hyperliquid_order`/`execute_bitget_order`) are external effects;
their outcomes enter as the `buy_result`/`sell_result` parameters, and the
function classifies the joint outcome exactly as the source does. -/
def live_execute_fok_pair_async (initialized : Bool)
    (buy_result sell_result : OrderResult) : FokResult :=
  if ¬ initialized then
    { success := false, error := "Executor not initialized"
      requires_manual_intervention := false }
  else if ¬ buy_result.success then
    { success := false, error := "Buy order failed: " ++ buy_result.error
      requires_manual_intervention := false }
  else if ¬ sell_result.success then
    { success := false, error := "Sell order failed: " ++ sell_result.error
      requires_manual_intervention := true }
  else
    { success := true, error := "", requires_manual_intervention := false }

/-- The paper portfolio `{'USDT': …, 'NVDA': …}`. -/
structure Portfolio where
  usdt : ℚ
  nvda : ℚ
deriving DecidableEq, Repr

/-- An order dict as passed to the paper executor. -/
structure POrder where
  exchange : Exchange
  symbol : String
  side : Side
  amount : ℚ
deriving DecidableEq, Repr

/-- `PaperTradeExecutor._calculate_fee` rate lookup (`FEES` always has both
exchanges, so the `0.001` default is dead). -/
def fees_rate (tcfg : TradingConfig) : Exchange → ℚ
  | Exchange.bitget => tcfg.FEES_bitget
  | Exchange.hyperliquid => tcfg.FEES_hyperliquid

/-- The fixed simulated price table of
`PaperTradeExecutor.execute_market_order` (lines 126–132): 171 for the
known exchange/symbol pairs, 170 otherwise. -/
def base_price : Exchange → String → ℚ
  | Exchange.bitget, s => if s = "NVDAUSDT" then 171 else 170
  | Exchange.hyperliquid, s => if s = "xyz:NVDA" then 171 else 170

/-- `PaperTradeExecutor._simulate_market_price` (lines 106–115). -/
def simulate_market_price (slippage base : ℚ) : Side → ℚ
  | Side.buy => base * (1 + slippage)
  | Side.sell => base * (1 - slippage)

/-- `PaperTradeExecutor.execute_market_order` (core/paper_executor.py lines
117–183): fill at the simulated price, charge the exchange fee, and mutate
the portfolio; insufficient balance fails the order and leaves the
portfolio unchanged. -/
def execute_market_order (tcfg : TradingConfig) (pf : Portfolio)
    (o : POrder) : OrderResult × Portfolio :=
  let price := simulate_market_price tcfg.MARKET_SLIPPAGE
    (base_price o.exchange o.symbol) o.side
  let volume := o.amount * price
  let fee := volume * fees_rate tcfg o.exchange
  match o.side with
  | Side.buy =>
    if pf.usdt ≥ volume + fee then
      ({ success := true, error := "", price := price, fee := fee, amount := o.amount },
       { usdt := pf.usdt - (volume + fee), nvda := pf.nvda + o.amount })
    else
      ({ success := false, error := "Insufficient USDT balance", price := 0, fee := 0
         amount := o.amount }, pf)
  | Side.sell =>
    if pf.nvda ≥ o.amount then
      ({ success := true, error := "", price := price, fee := fee, amount := o.amount },
       { usdt := pf.usdt + (volume - fee), nvda := pf.nvda - o.amount })
    else
      ({ success := false, error := "Insufficient NVDA balance", price := 0, fee := 0
         amount := o.amount }, pf)

/-- `PaperTradeExecutor.execute_fok_pair` (core/paper_executor.py lines
185–236): a pre-check on the estimated buy cost, then buy; on sell failure
after a successful buy the buy is rolled back in the simulated portfolio and
the result dict carries `success=False` with only `error` and `tag` keys —
no `requires_manual_intervention` key. -/
def paper_execute_fok_pair (tcfg : TradingConfig) (pf : Portfolio)
    (buy_order sell_order : POrder) : FokResult × Portfolio :=
  let buy_cost := buy_order.amount * 171
  let buy_cost_with_fee := buy_cost * (1 + fees_rate tcfg buy_order.exchange)
  if pf.usdt < buy_cost_with_fee then
    ({ success := false, error := "Insufficient USDT for FOK"
       requires_manual_intervention := false }, pf)
  else
    let buy_result := (execute_market_order tcfg pf buy_order).1
    let pf1 := (execute_market_order tcfg pf buy_order).2
    if ¬ buy_result.success then
      ({ success := false, error := "Buy order failed: " ++ buy_result.error
         requires_manual_intervention := false }, pf1)
    else
      let sell_result := (execute_market_order tcfg pf1 sell_order).1
      let pf2 := (execute_market_order tcfg pf1 sell_order).2
      if ¬ sell_result.success then
        ({ success := false, error := "Sell order failed: " ++ sell_result.error
           requires_manual_intervention := false },
         { usdt := pf2.usdt + buy_result.price * buy_result.amount + buy_result.fee
           nvda := pf2.nvda - buy_result.amount })
      else
        ({ success := true, error := "", requires_manual_intervention := false }, pf2)

/-- `ArbitrageEngine.execute_opportunity` (core/arbitrage_engine.py lines
740–819), with the executor call abstracted to its `entry_result` outcome:
sizing from the risk gate, then a Position is created and appended — with
the last-order time stamped and volume accumulated — only when the sizing is
positive and the entry result reports success.  Python's `%06d` id padding
is elided in the id string. -/
def execute_opportunity (rcfg : RiskConfig) (tcfg : TradingConfig)
    (es : EngineState) (now : ℚ) (direction : TradeDirection)
    (data : SpreadInfo) (entry_result : FokResult) : EngineState × Bool :=
  let current_contracts := get_total_position_contracts es (some direction)
  let position_size := calculate_position_size rcfg data.buy_price
    data.gross_spread current_contracts
  if position_size.contracts ≤ 0 then (es, false)
  else if ¬ entry_result.success then (es, false)
  else
    let position : Position :=
      { id := "pos_" ++ toString es.position_counter
        direction := direction
        entry_time := now
        contracts := position_size.contracts
        entry_prices := ⟨data.buy_price, data.sell_price⟩
        entry_spread := data.gross_spread
        exit_target := tcfg.MIN_SPREAD_EXIT * 100
        status := "open"
        current_exit_spread := 0
        spread_history := [data.gross_spread]
        update_count := 0 }
    ({ open_positions := es.open_positions ++ [position]
       position_counter := es.position_counter + 1
       last_order_time := now
       total_volume := es.total_volume + position_size.contracts * data.buy_price },
     true)

/-! ### Claim C1: sell-leg failure after a successful buy -/

/-- A failed paper market order leaves the portfolio unchanged
(`execute_market_order` only mutates on the success paths). -/
theorem execute_market_order_fail_unchanged (tcfg : TradingConfig)
    (pf : Portfolio) (o : POrder)
    (h : (execute_market_order tcfg pf o).1.success = false) :
    (execute_market_order tcfg pf o).2 = pf := by
  obtain ⟨ex, sym, sd, amt⟩ := o
  unfold execute_market_order at h ⊢
  cases sd <;> simp only at h ⊢ <;> split_ifs at h ⊢ <;> simp_all

/-- A successful paper buy order debits exactly `volume + fee` and credits
the bought amount, reporting the fill price, fee and amount it used. -/
theorem execute_market_order_buy_success (tcfg : TradingConfig)
    (pf : Portfolio) (o : POrder) (hside : o.side = Side.buy)
    (h : (execute_market_order tcfg pf o).1.success = true) :
    (execute_market_order tcfg pf o).2 =
      { usdt := pf.usdt - (o.amount * simulate_market_price tcfg.MARKET_SLIPPAGE
          (base_price o.exchange o.symbol) o.side +
          o.amount * simulate_market_price tcfg.MARKET_SLIPPAGE
          (base_price o.exchange o.symbol) o.side * fees_rate tcfg o.exchange)
        nvda := pf.nvda + o.amount } ∧
    (execute_market_order tcfg pf o).1.price =
      simulate_market_price tcfg.MARKET_SLIPPAGE
        (base_price o.exchange o.symbol) o.side ∧
    (execute_market_order tcfg pf o).1.fee =
      o.amount * simulate_market_price tcfg.MARKET_SLIPPAGE
        (base_price o.exchange o.symbol) o.side * fees_rate tcfg o.exchange ∧
    (execute_market_order tcfg pf o).1.amount = o.amount := by
  obtain ⟨ex, sym, sd, amt⟩ := o
  simp only at hside
  subst hside
  unfold execute_market_order at h ⊢
  simp only at h ⊢
  split_ifs at h ⊢ <;> simp_all

/-- C1 (amended): in the live executor, whenever the buy leg fills and the
sell leg then fails, the pair result has `success=false` and
`requires_manual_intervention=true`; the engine creates and mutates no
Position for any attempt whose entry result is unsuccessful.  The paper
executor, by contrast, returns `success=false` with no
`requires_manual_intervention` flag and instead rolls the buy leg back,
restoring the simulated portfolio exactly. -/
theorem c1_leg_failure_semantics :
    (∀ br sr : OrderResult, br.success = true → sr.success = false →
      (live_execute_fok_pair_async true br sr).success = false ∧
      (live_execute_fok_pair_async true br sr).requires_manual_intervention = true) ∧
    (∀ (rcfg : RiskConfig) (tcfg : TradingConfig) (es : EngineState) (now : ℚ)
      (d : TradeDirection) (data : SpreadInfo) (er : FokResult),
      er.success = false →
      execute_opportunity rcfg tcfg es now d data er = (es, false)) ∧
    (∀ (tcfg : TradingConfig) (pf : Portfolio) (bo so : POrder),
      bo.side = Side.buy →
      ¬ pf.usdt < bo.amount * 171 * (1 + fees_rate tcfg bo.exchange) →
      (execute_market_order tcfg pf bo).1.success = true →
      (execute_market_order tcfg (execute_market_order tcfg pf bo).2 so).1.success = false →
      (paper_execute_fok_pair tcfg pf bo so).1.success = false ∧
      (paper_execute_fok_pair tcfg pf bo so).1.requires_manual_intervention = false ∧
      (paper_execute_fok_pair tcfg pf bo so).2 = pf) := by
  refine ⟨?_, ?_, ?_⟩
  · intro br sr hb hs
    simp [live_execute_fok_pair_async, hb, hs]
  · intro rcfg tcfg es now d data er her
    unfold execute_opportunity
    by_cases hsz : (calculate_position_size rcfg data.buy_price data.gross_spread
        (get_total_position_contracts es (some d))).contracts ≤ 0
    · rw [if_pos hsz]
    · rw [if_neg hsz, if_pos (by simp [her])]
  · intro tcfg pf bo so hside hpre hbuy hsell
    obtain ⟨hpf1, hprice, hfee, hamt⟩ :=
      execute_market_order_buy_success tcfg pf bo hside hbuy
    have hpf2 := execute_market_order_fail_unchanged tcfg
      (execute_market_order tcfg pf bo).2 so hsell
    have hres : paper_execute_fok_pair tcfg pf bo so =
        ({ success := false
           error := "Sell order failed: " ++
             (execute_market_order tcfg (execute_market_order tcfg pf bo).2 so).1.error
           requires_manual_intervention := false },
         { usdt := (execute_market_order tcfg
              (execute_market_order tcfg pf bo).2 so).2.usdt +
              (execute_market_order tcfg pf bo).1.price *
                (execute_market_order tcfg pf bo).1.amount +
              (execute_market_order tcfg pf bo).1.fee
           nvda := (execute_market_order tcfg
              (execute_market_order tcfg pf bo).2 so).2.nvda -
              (execute_market_order tcfg pf bo).1.amount }) := by
      unfold paper_execute_fok_pair
      rw [if_neg hpre, if_neg (by simp [hbuy]), if_pos (by simp [hsell])]
    rw [hres]
    refine ⟨rfl, rfl, ?_⟩
    rw [hpf2, hpf1, hprice, hfee, hamt]
    refine congrArg₂ _ ?_ ?_ <;> simp <;> ring

/-- The C1 counterexample inputs: a persisted paper portfolio whose NVDA
balance is slightly negative (the file-mismatch situation
`reconcile_with_positions` warns about), and the equal-sized FOK pair the
engine would submit for a B→H entry. -/
def c1_pf : Portfolio := { usdt := 1000, nvda := -1/100 }

def c1_buy_order : POrder :=
  { exchange := Exchange.bitget, symbol := "NVDAUSDT"
    side := Side.buy, amount := 1/50 }

def c1_sell_order : POrder :=
  { exchange := Exchange.hyperliquid, symbol := "xyz:NVDA"
    side := Side.sell, amount := 1/50 }

/-- C1 counterexample: on this order pair the paper executor's buy leg
fills and the sell leg then fails, yet the returned result carries no
`requires_manual_intervention` flag (the dict only has `success`, `error`
and `tag` keys) — the claim's flag is a live-executor behaviour only. -/
theorem c1_counterexample :
    (execute_market_order TRADING_CONFIG c1_pf c1_buy_order).1.success = true ∧
    (execute_market_order TRADING_CONFIG
      (execute_market_order TRADING_CONFIG c1_pf c1_buy_order).2
      c1_sell_order).1.success = false ∧
    (paper_execute_fok_pair TRADING_CONFIG c1_pf c1_buy_order c1_sell_order).1.success
      = false ∧
    (paper_execute_fok_pair TRADING_CONFIG c1_pf c1_buy_order
      c1_sell_order).1.requires_manual_intervention = false := by
  refine ⟨?_, ?_, ?_, ?_⟩ <;>
    norm_num [paper_execute_fok_pair, execute_market_order, simulate_market_price,
      base_price, fees_rate, c1_pf, c1_buy_order, c1_sell_order, TRADING_CONFIG]

/-- C1 witness: the live executor flags a concrete buy-fill/sell-fail pair
for manual intervention, and the engine leaves its state untouched on a
failed entry result. -/
theorem c1_witness :
    ((live_execute_fok_pair_async true
        { success := true, error := "", price := 100, fee := 0, amount := 1/50 }
        { success := false, error := "Order not filled (IOC)", price := 0, fee := 0
          amount := 1/50 }).success = false ∧
      (live_execute_fok_pair_async true
        { success := true, error := "", price := 100, fee := 0, amount := 1/50 }
        { success := false, error := "Order not filled (IOC)", price := 0, fee := 0
          amount := 1/50 }).requires_manual_intervention = true) ∧
    execute_opportunity RISK_CONFIG TRADING_CONFIG
        { open_positions := [], position_counter := 0
          last_order_time := 0, total_volume := 0 } 10 TradeDirection.B_TO_H
        { gross_spread := 1/2, buy_price := 100, sell_price := 201/2
          buy_slippage := 1/10000, sell_slippage := 1/10000 }
        { success := false, error := "Sell order failed: Order not filled (IOC)"
          requires_manual_intervention := true } =
      ({ open_positions := [], position_counter := 0
         last_order_time := 0, total_volume := 0 }, false) :=
  ⟨c1_leg_failure_semantics.1 _ _ rfl rfl,
   c1_leg_failure_semantics.2.1 RISK_CONFIG TRADING_CONFIG _ 10 _ _ _ rfl⟩

/-! ### WebSocketManager reconnection policy (`core/connection_manager.py`) -/

inductive ConnectionState where
  | CONNECTED
  | CONNECTING
  | DISCONNECTED
  | ERROR
deriving DecidableEq, Repr

/-- `max_attempts = 10` (core/connection_manager.py line 70). -/
def reconnect_max_attempts : ℕ := 10

/-- `base_delay = 1` second (line 71). -/
def reconnect_base_delay : ℕ := 1

/-- The attempt loop of `WebSocketManager.reconnect_connection` (lines
73–103) run over a list of attempt numbers.  `outcomes a` is whether the
`client.start()` call of attempt `a` returns success (an exception counts
as failure).  Returns the final connection state, the number of attempts
made, and the backoff delays slept after each failed attempt
(`base_delay * 2 ** min(attempt, 5)`). -/
def run_reconnect_attempts (outcomes : ℕ → Bool) :
    List ℕ → ConnectionState × ℕ × List ℕ
  | [] => (ConnectionState.ERROR, 0, [])
  | a :: rest =>
    if outcomes a then (ConnectionState.CONNECTED, 1, [])
    else
      let r := run_reconnect_attempts outcomes rest
      (r.1, r.2.1 + 1, reconnect_base_delay * 2 ^ min a 5 :: r.2.2)

/-- `WebSocketManager.reconnect_connection` (lines 56–107): attempts are
numbered 1..10; when the loop exhausts them the state becomes `ERROR` and
the function returns without scheduling anything further. -/
def reconnect_connection (outcomes : ℕ → Bool) : ConnectionState × ℕ × List ℕ :=
  run_reconnect_attempts outcomes (List.range' 1 reconnect_max_attempts)

theorem run_reconnect_attempts_le (outcomes : ℕ → Bool) (l : List ℕ) :
    (run_reconnect_attempts outcomes l).2.1 ≤ l.length := by
  induction l with
  | nil => simp [run_reconnect_attempts]
  | cons a rest ih =>
    simp only [run_reconnect_attempts, List.length_cons]
    split_ifs
    · simp
    · simpa using Nat.add_le_add_right ih 1

theorem run_reconnect_attempts_delays (outcomes : ℕ → Bool) (l : List ℕ) :
    (run_reconnect_attempts outcomes l).2.2 =
      (l.takeWhile (fun a => ! outcomes a)).map
        (fun a => reconnect_base_delay * 2 ^ min a 5) := by
  induction l with
  | nil => simp [run_reconnect_attempts]
  | cons a rest ih =>
    simp only [run_reconnect_attempts, List.takeWhile]
    by_cases h : outcomes a
    · simp [h]
    · simp [h, ih]

theorem run_reconnect_attempts_all_fail (outcomes : ℕ → Bool) (l : List ℕ)
    (h : ∀ a ∈ l, outcomes a = false) :
    (run_reconnect_attempts outcomes l).1 = ConnectionState.ERROR ∧
    (run_reconnect_attempts outcomes l).2.1 = l.length := by
  induction l with
  | nil => simp [run_reconnect_attempts]
  | cons a rest ih =>
    have ha : outcomes a = false := h a (List.mem_cons_self a rest)
    have ih2 := ih (fun b hb => h b (List.mem_cons_of_mem a hb))
    simp only [run_reconnect_attempts, ha, Bool.false_eq_true, if_false,
      List.length_cons]
    exact ⟨ih2.1, by rw [ih2.2]⟩

theorem run_reconnect_attempts_congr (outcomes outcomes2 : ℕ → Bool)
    (l : List ℕ) (h : ∀ a ∈ l, outcomes a = outcomes2 a) :
    run_reconnect_attempts outcomes l = run_reconnect_attempts outcomes2 l := by
  induction l with
  | nil => rfl
  | cons a rest ih =>
    have ha := h a (List.mem_cons_self a rest)
    have ih2 := ih (fun b hb => h b (List.mem_cons_of_mem a hb))
    simp only [run_reconnect_attempts, ha, ih2]

/-! ### Claim C8: bounded exponential-backoff reconnection -/

/-- C8: the reconnection loop makes at most 10 attempts; after each failed
attempt `a` it waits `base × 2^min(a,5)` seconds (the delays list is exactly
the map of that formula over the failed prefix); when all 10 attempts fail
the state transitions to `ERROR` having used exactly 10 attempts; and the
outcome depends only on the outcomes of attempts 1..10 — no later attempt is
ever consulted, so nothing further is scheduled once `ERROR` is reached. -/
theorem c8_reconnect_policy (outcomes : ℕ → Bool) :
    (reconnect_connection outcomes).2.1 ≤ reconnect_max_attempts ∧
    (reconnect_connection outcomes).2.2 =
      ((List.range' 1 reconnect_max_attempts).takeWhile (fun a => ! outcomes a)).map
        (fun a => reconnect_base_delay * 2 ^ min a 5) ∧
    ((∀ a, 1 ≤ a → a ≤ reconnect_max_attempts → outcomes a = false) →
      (reconnect_connection outcomes).1 = ConnectionState.ERROR ∧
      (reconnect_connection outcomes).2.1 = reconnect_max_attempts) ∧
    (∀ outcomes2 : ℕ → Bool,
      (∀ a, a ≤ reconnect_max_attempts → outcomes a = outcomes2 a) →
      reconnect_connection outcomes = reconnect_connection outcomes2) := by
  refine ⟨?_, ?_, ?_, ?_⟩
  · simpa using run_reconnect_attempts_le outcomes (List.range' 1 reconnect_max_attempts)
  · exact run_reconnect_attempts_delays outcomes (List.range' 1 reconnect_max_attempts)
  · intro h
    have hall : ∀ a ∈ List.range' 1 reconnect_max_attempts, outcomes a = false := by
      intro a ha
      rw [List.mem_range'] at ha
      obtain ⟨i, hi, rfl⟩ := ha
      have hi10 : i < 10 := by simpa [reconnect_max_attempts] using hi
      refine h _ (by omega) ?_
      simp only [reconnect_max_attempts]
      omega
    have := run_reconnect_attempts_all_fail outcomes
      (List.range' 1 reconnect_max_attempts) hall
    simpa [reconnect_connection] using this
  · intro outcomes2 h
    apply run_reconnect_attempts_congr
    intro a ha
    rw [List.mem_range'] at ha
    obtain ⟨i, hi, rfl⟩ := ha
    have hi10 : i < 10 := by simpa [reconnect_max_attempts] using hi
    refine h _ ?_
    simp only [reconnect_max_attempts]
    omega

/-- C8 witness: with every attempt failing, the manager stops in `ERROR`
after exactly 10 attempts, having slept 1·2¹,…,1·2⁵,1·2⁵,… seconds. -/
theorem c8_witness :
    (reconnect_connection (fun _ => false)).1 = ConnectionState.ERROR ∧
    (reconnect_connection (fun _ => false)).2.1 = reconnect_max_attempts ∧
    (reconnect_connection (fun _ => false)).2.2 =
      [2, 4, 8, 16, 32, 32, 32, 32, 32, 32] :=
  ⟨((c8_reconnect_policy (fun _ => false)).2.2.1 (fun _ _ _ => rfl)).1,
   ((c8_reconnect_policy (fun _ => false)).2.2.1 (fun _ _ _ => rfl)).2,
   by rw [(c8_reconnect_policy (fun _ => false)).2.1]; decide⟩

/-! ### OrderBookAnalyzer (`core/websocket_clients.py`) -/

/-- The comparison key of `sorted(levels, key=lambda x: x[0])`: ascending
order on the price component of a `[price, volume]` level. -/
def priceLE (x y : ℚ × ℚ) : Prop := x.1 ≤ y.1

/-- The comparison of `sorted(levels, key=lambda x: x[0], reverse=True)`:
descending order on price. -/
def priceGE (x y : ℚ × ℚ) : Prop := y.1 ≤ x.1

instance : DecidableRel priceLE :=
  fun x y => inferInstanceAs (Decidable (x.1 ≤ y.1))

instance : DecidableRel priceGE :=
  fun x y => inferInstanceAs (Decidable (y.1 ≤ x.1))

instance : IsTotal (ℚ × ℚ) priceLE := ⟨fun a b => le_total a.1 b.1⟩

instance : IsTrans (ℚ × ℚ) priceLE := ⟨fun _ _ _ h1 h2 => le_trans h1 h2⟩

instance : IsTotal (ℚ × ℚ) priceGE := ⟨fun a b => le_total b.1 a.1⟩

instance : IsTrans (ℚ × ℚ) priceGE := ⟨fun _ _ _ h1 h2 => le_trans h2 h1⟩

/-- The accumulation loop of `OrderBookAnalyzer.calculate_average_price`
(core/websocket_clients.py lines 74–95) over the already-sorted levels,
including the tail rule: a positive remainder after the walk is priced at
`backstop` (the last sorted level's price).  Returns the total cost. -/
def fill_cost (backstop : ℚ) : List (ℚ × ℚ) → ℚ → ℚ
  | [], r => if 0 < r then backstop * r else 0
  | (p, v) :: ls, r =>
    if r ≤ 0 then 0
    else p * min v r + fill_cost backstop ls (r - min v r)

/-- `OrderBookAnalyzer.calculate_average_price` (core/websocket_clients.py
lines 61–97).  Python's stable `sorted` is embedded as insertion sort
(also stable; the cost is in any case invariant under reordering of
equal-price levels). -/
def calculate_average_price (levels : List (ℚ × ℚ)) (amount : ℚ)
    (reverse : Bool) : ℚ :=
  if levels = [] ∨ amount ≤ 0 then 0
  else
    let sorted_levels :=
      if reverse then List.insertionSort priceGE levels
      else List.insertionSort priceLE levels
    fill_cost (sorted_levels.getLastD (0, 0)).1 sorted_levels amount / amount

/-- An order-book dict `{'bids': …, 'asks': …}`; either key may be absent.
A falsy (`None`/empty) book argument is `none` at the call site. -/
structure OrderBook where
  bids : Option (List (ℚ × ℚ))
  asks : Option (List (ℚ × ℚ))
deriving DecidableEq, Repr

/-- `OrderBookAnalyzer.calculate_slippage` (core/websocket_clients.py lines
17–59): walk the liquidity-taking side for the requested amount; missing or
empty data yields the fixed `0.001` default; the result is clamped to be
non-negative.  The best price is read from the *unsorted* first level, as in
the source (`asks[0][0]` / `bids[0][0]`). -/
def calculate_slippage (orderbook : Option OrderBook) (side : Side)
    (amount : ℚ) : ℚ :=
  match orderbook with
  | none => 1/1000
  | some book =>
    match book.bids, book.asks with
    | some bids, some asks =>
      match side with
      | Side.buy =>
        match asks with
        | [] => 1/1000
        | (best_ask, _) :: _ =>
          let avg_price := calculate_average_price asks amount false
          if 0 < avg_price ∧ 0 < best_ask then
            max 0 (avg_price / best_ask - 1)
          else 1/1000
      | Side.sell =>
        match bids with
        | [] => 1/1000
        | (best_bid, _) :: _ =>
          let avg_price := calculate_average_price bids amount true
          if 0 < avg_price ∧ 0 < best_bid then
            max 0 (1 - avg_price / best_bid)
          else 1/1000
    | _, _ => 1/1000

/-! Auxiliary facts about `fill_cost`. -/

theorem fill_cost_zero (q : ℚ) (ls : List (ℚ × ℚ)) : fill_cost q ls 0 = 0 := by
  cases ls with
  | nil => simp [fill_cost]
  | cons a rest =>
    obtain ⟨p, v⟩ := a
    simp [fill_cost]

/-- All prices (and the backstop) bounded below by `P`, volumes
non-negative: the cost of `r` units is at least `P · r`. -/
theorem fill_cost_lower (q P : ℚ) (ls : List (ℚ × ℚ))
    (hp : ∀ x ∈ ls, P ≤ x.1) (hq : P ≤ q) (hv : ∀ x ∈ ls, 0 ≤ x.2) :
    ∀ r : ℚ, 0 ≤ r → P * r ≤ fill_cost q ls r := by
  induction ls with
  | nil =>
    intro r hr
    simp only [fill_cost]
    split_ifs with h
    · exact mul_le_mul_of_nonneg_right hq hr
    · have : r = 0 := le_antisymm (not_lt.mp h) hr
      simp [this]
  | cons a rest ih =>
    obtain ⟨p, v⟩ := a
    intro r hr
    have hpP : P ≤ p := hp (p, v) (List.mem_cons_self _ _)
    have hv0 : 0 ≤ v := hv (p, v) (List.mem_cons_self _ _)
    simp only [fill_cost]
    split_ifs with h
    · have : r = 0 := le_antisymm h hr
      simp [this]
    · push_neg at h
      have hm0 : 0 ≤ min v r := le_min hv0 hr
      have hmr : min v r ≤ r := min_le_right _ _
      have h1 : P * min v r ≤ p * min v r :=
        mul_le_mul_of_nonneg_right hpP hm0
      have h2 : P * (r - min v r) ≤ fill_cost q rest (r - min v r) :=
        ih (fun x hx => hp x (List.mem_cons_of_mem _ hx))
          (fun x hx => hv x (List.mem_cons_of_mem _ hx)) _ (by linarith)
      linarith [h1, h2, mul_sub P r (min v r)]

/-- Marginal-cost lower bound: filling `r' − r` additional units costs at
least `P · (r' − r)` when every price (and the backstop) is at least `P`. -/
theorem fill_cost_marg_lower (q P : ℚ) (ls : List (ℚ × ℚ))
    (hp : ∀ x ∈ ls, P ≤ x.1) (hq : P ≤ q) (hv : ∀ x ∈ ls, 0 ≤ x.2) :
    ∀ r r' : ℚ, 0 ≤ r → r ≤ r' →
    P * (r' - r) ≤ fill_cost q ls r' - fill_cost q ls r := by
  induction ls with
  | nil =>
    intro r r' hr hrr
    simp only [fill_cost]
    by_cases h2 : 0 < r
    · rw [if_pos (lt_of_lt_of_le h2 hrr), if_pos h2]
      have := mul_le_mul_of_nonneg_right hq (sub_nonneg.mpr hrr)
      linarith [mul_sub q r' r, mul_sub P r' r]
    · have hr0 : r = 0 := le_antisymm (not_lt.mp h2) hr
      subst hr0
      rw [if_neg h2]
      by_cases h1 : 0 < r'
      · rw [if_pos h1]
        have := mul_le_mul_of_nonneg_right hq (le_of_lt h1)
        simp only [sub_zero]
        exact this
      · have hr0' : r' = 0 := le_antisymm (not_lt.mp h1) hrr
        subst hr0'
        simp
  | cons a rest ih =>
    obtain ⟨p, v⟩ := a
    intro r r' hr hrr
    have hpP : P ≤ p := hp (p, v) (List.mem_cons_self _ _)
    by_cases h0 : r' ≤ 0
    · have hr0 : r = 0 := le_antisymm (le_trans hrr h0) hr
      have hr0' : r' = 0 := le_antisymm h0 (hr0 ▸ hrr)
      simp [hr0, hr0']
    · push_neg at h0
      by_cases hrpos : r ≤ 0
      · have hr0 : r = 0 := le_antisymm hrpos hr
        subst hr0
        have := fill_cost_lower q P ((p, v) :: rest) hp hq hv r' (le_of_lt h0)
        rw [fill_cost_zero]
        simpa using this
      · push_neg at hrpos
        simp only [fill_cost, if_neg (not_le.mpr hrpos), if_neg (not_le.mpr h0)]
        have hmm : min v r ≤ min v r' := min_le_min le_rfl hrr
        have hsub : r - min v r ≤ r' - min v r' := by
          rcases le_total v r with hvr | hvr
          · rw [min_eq_left hvr, min_eq_left (le_trans hvr hrr)]
            linarith
          · rw [min_eq_right hvr]
            rcases le_total v r' with hvr' | hvr'
            · rw [min_eq_left hvr']
              linarith
            · rw [min_eq_right hvr']
              linarith
        have hsub0 : 0 ≤ r - min v r := sub_nonneg.mpr (min_le_right v r)
        have h1 : P * (min v r' - min v r) ≤ p * (min v r' - min v r) :=
          mul_le_mul_of_nonneg_right hpP (sub_nonneg.mpr hmm)
        have h2 := ih (fun x hx => hp x (List.mem_cons_of_mem _ hx))
          (fun x hx => hv x (List.mem_cons_of_mem _ hx))
          (r - min v r) (r' - min v r') hsub0 hsub
        have hP : P * (r' - r) =
            P * (min v r' - min v r) + P * ((r' - min v r') - (r - min v r)) := by
          ring
        have hpmul : p * (min v r' - min v r) = p * min v r' - p * min v r := by
          ring
        linarith [mul_sub P (r' - min v r') (r - min v r)]

theorem fill_cost_nonneg (q : ℚ) (ls : List (ℚ × ℚ)) (hq : 0 ≤ q)
    (h : ∀ x ∈ ls, 0 ≤ x.1 ∧ 0 ≤ x.2) :
    ∀ r : ℚ, 0 ≤ fill_cost q ls r := by
  induction ls with
  | nil =>
    intro r
    simp only [fill_cost]
    split_ifs with h1
    · exact mul_nonneg hq (le_of_lt h1)
    · exact le_refl 0
  | cons a rest ih =>
    obtain ⟨p, v⟩ := a
    intro r
    have hh := h (p, v) (List.mem_cons_self _ _)
    simp only [fill_cost]
    split_ifs with h1
    · exact le_refl 0
    · push_neg at h1
      have hm : 0 ≤ min v r := le_min hh.2 (le_of_lt h1)
      have := ih (fun x hx => h x (List.mem_cons_of_mem _ hx)) (r - min v r)
      have := mul_nonneg hh.1 hm
      linarith

theorem fill_cost_pos (q : ℚ) (ls : List (ℚ × ℚ)) (hq : 0 < q)
    (h : ∀ x ∈ ls, 0 < x.1 ∧ 0 ≤ x.2) :
    ∀ r : ℚ, 0 < r → 0 < fill_cost q ls r := by
  induction ls with
  | nil =>
    intro r hr
    simp only [fill_cost, if_pos hr]
    exact mul_pos hq hr
  | cons a rest ih =>
    obtain ⟨p, v⟩ := a
    intro r hr
    have hh := h (p, v) (List.mem_cons_self _ _)
    simp only [fill_cost, if_neg (not_le.mpr hr)]
    have hm : 0 ≤ min v r := le_min hh.2 (le_of_lt hr)
    rcases eq_or_lt_of_le hm with hm0 | hmpos
    · have hvr : min v r = 0 := hm0.symm
      rw [hvr]
      have : 0 < fill_cost q rest (r - 0) :=
        ih (fun x hx => h x (List.mem_cons_of_mem _ hx)) (r - 0) (by linarith)
      simpa using this
    · have h1 : 0 < p * min v r := mul_pos hh.1 hmpos
      have h2 : 0 ≤ fill_cost q rest (r - min v r) :=
        fill_cost_nonneg q rest (le_of_lt hq)
          (fun x hx => ⟨le_of_lt (h x (List.mem_cons_of_mem _ hx)).1,
            (h x (List.mem_cons_of_mem _ hx)).2⟩) _
      linarith

/-- The key convexity fact: over a price-ascending book (with the backstop
at least every price and non-negative volumes), the average fill price
`fill_cost … a / a` is non-decreasing in the amount, stated
multiplicatively. -/
theorem fill_cost_ratio (q : ℚ) (ls : List (ℚ × ℚ))
    (hsort : List.Pairwise priceLE ls) (hq : ∀ x ∈ ls, x.1 ≤ q)
    (hv : ∀ x ∈ ls, 0 ≤ x.2) :
    ∀ a a' : ℚ, 0 < a → a ≤ a' →
    fill_cost q ls a * a' ≤ fill_cost q ls a' * a := by
  induction ls with
  | nil =>
    intro a a' ha haa
    have ha' : 0 < a' := lt_of_lt_of_le ha haa
    simp only [fill_cost, if_pos ha, if_pos ha']
    ring_nf
    nlinarith [mul_le_mul_of_nonneg_left haa (le_of_lt ha)]
  | cons x rest ih =>
    obtain ⟨p, v⟩ := x
    intro a a' ha haa
    have ha' : 0 < a' := lt_of_lt_of_le ha haa
    have hpq : p ≤ q := hq (p, v) (List.mem_cons_self _ _)
    have hv0 : 0 ≤ v := hv (p, v) (List.mem_cons_self _ _)
    have hptail : ∀ y ∈ rest, p ≤ y.1 := by
      intro y hy
      exact (List.pairwise_cons.mp hsort).1 y hy
    have hqtail : ∀ y ∈ rest, y.1 ≤ q :=
      fun y hy => hq y (List.mem_cons_of_mem _ hy)
    have hvtail : ∀ y ∈ rest, 0 ≤ y.2 :=
      fun y hy => hv y (List.mem_cons_of_mem _ hy)
    simp only [fill_cost, if_neg (not_le.mpr ha), if_neg (not_le.mpr ha')]
    rcases le_total a v with hav | hav
    · -- the head level absorbs the whole of `a`
      rw [min_eq_right hav]
      have hzero : a - a = 0 := sub_self a
      rw [hzero, fill_cost_zero]
      rcases le_total a' v with hav' | hav'
      · rw [min_eq_right hav']
        rw [sub_self, fill_cost_zero]
        ring_nf
        nlinarith [mul_le_mul_of_nonneg_left haa (le_of_lt ha)]
      · rw [min_eq_left hav']
        have hlow := fill_cost_lower q p rest hptail hpq hvtail (a' - v)
          (by linarith)
        nlinarith [mul_nonneg (le_of_lt ha) (sub_nonneg.mpr
          (le_trans (le_of_eq (mul_sub p a' v).symm) hlow))]
    · -- the head level is exhausted; recurse on the remainder
      rw [min_eq_left hav, min_eq_left (le_trans hav haa)]
      set r := a - v with hrdef
      set r' := a' - v with hrdef2
      rcases lt_or_eq_of_le (sub_nonneg.mpr hav) with hrpos | hrzero
      · have hrr : r ≤ r' := by simp only [hrdef, hrdef2]; linarith
        have hih := ih (List.pairwise_cons.mp hsort).2 hqtail hvtail r r'
          (by simpa [hrdef] using hrpos) hrr
        have hmarg := fill_cost_marg_lower q p rest hptail hpq hvtail r r'
          (le_of_lt (by simpa [hrdef] using hrpos)) hrr
        have hvfact : 0 ≤ v * (fill_cost q rest r' - fill_cost q rest r -
            p * (r' - r)) := mul_nonneg hv0 (by linarith)
        have hae : a = v + r := by simp [hrdef]
        have hae2 : a' = v + r' := by simp [hrdef2]
        rw [hae, hae2]
        nlinarith [hih, hvfact]
      · -- `a = v` exactly: the remainder of `a` is zero
        have hr0 : r = 0 := hrzero.symm
        have hra : a = v := by
          have := hrdef
          linarith [hr0, hrdef]
        rw [hr0, fill_cost_zero]
        have hr2nn : 0 ≤ r' := by
          rw [hrdef2]
          linarith
        have hlow := fill_cost_lower q p rest hptail hpq hvtail r' hr2nn
        have hfact : 0 ≤ v * (fill_cost q rest r' - p * r') :=
          mul_nonneg hv0 (by linarith)
        have hae2 : a' = v + r' := by rw [hrdef2]; ring
        rw [hra, hae2]
        nlinarith [hfact]

theorem getLastD_mem {α : Type} : ∀ (l : List α) (d : α), l ≠ [] → l.getLastD d ∈ l
  | [], _, h => absurd rfl h
  | [a], d, _ => by simp
  | a :: b :: t, d, _ => by
    rw [List.getLastD_cons]
    exact List.mem_cons_of_mem a (getLastD_mem (b :: t) a (by simp))

/-- In a price-ascending list the last element carries the largest price. -/
theorem pairwise_le_getLastD :
    ∀ (l : List (ℚ × ℚ)) (d : ℚ × ℚ), List.Pairwise priceLE l →
    ∀ x ∈ l, x.1 ≤ (l.getLastD d).1 := by
  intro l
  induction l with
  | nil => intro d _ x hx; exact absurd hx (List.not_mem_nil x)
  | cons a rest ih =>
    intro d hp x hx
    rw [List.getLastD_cons]
    rcases List.mem_cons.mp hx with rfl | hxr
    · cases rest with
      | nil => simp
      | cons b t =>
        have hmem : (b :: t).getLastD x ∈ b :: t := getLastD_mem _ _ (by simp)
        exact (List.pairwise_cons.mp hp).1 _ hmem
    · exact ih a (List.pairwise_cons.mp hp).2 x hxr

/-- In a price-descending list the last element carries the smallest price. -/
theorem pairwise_ge_getLastD :
    ∀ (l : List (ℚ × ℚ)) (d : ℚ × ℚ), List.Pairwise priceGE l →
    ∀ x ∈ l, (l.getLastD d).1 ≤ x.1 := by
  intro l
  induction l with
  | nil => intro d _ x hx; exact absurd hx (List.not_mem_nil x)
  | cons a rest ih =>
    intro d hp x hx
    rw [List.getLastD_cons]
    rcases List.mem_cons.mp hx with rfl | hxr
    · cases rest with
      | nil => simp
      | cons b t =>
        have hmem : (b :: t).getLastD x ∈ b :: t := getLastD_mem _ _ (by simp)
        exact (List.pairwise_cons.mp hp).1 _ hmem
    · exact ih a (List.pairwise_cons.mp hp).2 x hxr

/-- Negating every price negates the cost (the taken volumes do not depend
on prices). -/
theorem fill_cost_neg (q : ℚ) :
    ∀ (ls : List (ℚ × ℚ)) (r : ℚ),
    fill_cost (-q) (ls.map (fun x => (-x.1, x.2))) r = -fill_cost q ls r := by
  intro ls
  induction ls with
  | nil =>
    intro r
    simp only [List.map_nil, fill_cost]
    split_ifs <;> ring
  | cons a rest ih =>
    obtain ⟨p, v⟩ := a
    intro r
    simp only [List.map_cons, fill_cost]
    split_ifs with h
    · ring
    · rw [ih]
      ring

/-- The descending-order counterpart of `fill_cost_ratio`: over a
price-descending book with the backstop below every price, the average fill
price is non-increasing in the amount. -/
theorem fill_cost_ratio_desc (q : ℚ) (ls : List (ℚ × ℚ))
    (hsort : List.Pairwise priceGE ls) (hq : ∀ x ∈ ls, q ≤ x.1)
    (hv : ∀ x ∈ ls, 0 ≤ x.2) :
    ∀ a a' : ℚ, 0 < a → a ≤ a' →
    fill_cost q ls a' * a ≤ fill_cost q ls a * a' := by
  intro a a' ha haa
  have hsort2 : List.Pairwise priceLE (ls.map (fun x => (-x.1, x.2))) := by
    rw [List.pairwise_map]
    exact hsort.imp (fun h => by simpa [priceLE] using neg_le_neg h)
  have hq2 : ∀ y ∈ ls.map (fun x => (-x.1, x.2)), y.1 ≤ -q := by
    intro y hy
    obtain ⟨x, hx, rfl⟩ := List.mem_map.mp hy
    simpa using neg_le_neg (hq x hx)
  have hv2 : ∀ y ∈ ls.map (fun x => (-x.1, x.2)), 0 ≤ y.2 := by
    intro y hy
    obtain ⟨x, hx, rfl⟩ := List.mem_map.mp hy
    exact hv x hx
  have h := fill_cost_ratio (-q) (ls.map (fun x => (-x.1, x.2)))
    hsort2 hq2 hv2 a a' ha haa
  rw [fill_cost_neg, fill_cost_neg] at h
  linarith

/-- The average buy price over the ask side is non-decreasing in the
amount, provided every level has a positive price and non-negative
volume. -/
theorem calculate_average_price_mono_asc (levels : List (ℚ × ℚ))
    (hlv : ∀ x ∈ levels, 0 < x.1 ∧ 0 ≤ x.2) (hne : levels ≠ [])
    (a a' : ℚ) (ha : 0 < a) (haa : a ≤ a') :
    calculate_average_price levels a false ≤
      calculate_average_price levels a' false := by
  have ha' : 0 < a' := lt_of_lt_of_le ha haa
  simp only [calculate_average_price, Bool.false_eq_true, if_false]
  rw [if_neg (by push_neg; exact ⟨hne, ha⟩),
    if_neg (by push_neg; exact ⟨hne, ha'⟩)]
  set sorted := List.insertionSort priceLE levels with hsorted
  have hperm : sorted.Perm levels := List.perm_insertionSort priceLE levels
  have hsne : sorted ≠ [] := by
    intro h
    rw [h] at hperm
    exact hne hperm.symm.eq_nil
  have hsmem : ∀ x ∈ sorted, 0 < x.1 ∧ 0 ≤ x.2 :=
    fun x hx => hlv x (hperm.mem_iff.mp hx)
  have hsort : List.Pairwise priceLE sorted :=
    List.sorted_insertionSort priceLE levels
  have hqb : ∀ x ∈ sorted, x.1 ≤ (sorted.getLastD (0, 0)).1 :=
    pairwise_le_getLastD sorted (0, 0) hsort
  have hratio := fill_cost_ratio (sorted.getLastD (0, 0)).1 sorted hsort hqb
    (fun x hx => (hsmem x hx).2) a a' ha haa
  rw [div_le_div_iff ha ha']
  exact hratio

/-- The average sell price over the bid side is non-increasing in the
amount, provided every level has a positive price and non-negative
volume. -/
theorem calculate_average_price_anti_desc (levels : List (ℚ × ℚ))
    (hlv : ∀ x ∈ levels, 0 < x.1 ∧ 0 ≤ x.2) (hne : levels ≠ [])
    (a a' : ℚ) (ha : 0 < a) (haa : a ≤ a') :
    calculate_average_price levels a' true ≤
      calculate_average_price levels a true := by
  have ha' : 0 < a' := lt_of_lt_of_le ha haa
  simp only [calculate_average_price, if_true]
  rw [if_neg (by push_neg; exact ⟨hne, ha'⟩),
    if_neg (by push_neg; exact ⟨hne, ha⟩)]
  set sorted := List.insertionSort priceGE levels with hsorted
  have hperm : sorted.Perm levels := List.perm_insertionSort priceGE levels
  have hsne : sorted ≠ [] := by
    intro h
    rw [h] at hperm
    exact hne hperm.symm.eq_nil
  have hsmem : ∀ x ∈ sorted, 0 < x.1 ∧ 0 ≤ x.2 :=
    fun x hx => hlv x (hperm.mem_iff.mp hx)
  have hsort : List.Pairwise priceGE sorted :=
    List.sorted_insertionSort priceGE levels
  have hqb : ∀ x ∈ sorted, (sorted.getLastD (0, 0)).1 ≤ x.1 :=
    pairwise_ge_getLastD sorted (0, 0) hsort
  have hratio := fill_cost_ratio_desc (sorted.getLastD (0, 0)).1 sorted hsort hqb
    (fun x hx => (hsmem x hx).2) a a' ha haa
  rw [div_le_div_iff ha' ha]
  exact hratio

/-- With positive prices and non-negative volumes the average price over a
non-empty side is positive for any positive amount. -/
theorem calculate_average_price_pos (levels : List (ℚ × ℚ)) (reverse : Bool)
    (hlv : ∀ x ∈ levels, 0 < x.1 ∧ 0 ≤ x.2) (hne : levels ≠ [])
    (a : ℚ) (ha : 0 < a) :
    0 < calculate_average_price levels a reverse := by
  simp only [calculate_average_price]
  rw [if_neg (by push_neg; exact ⟨hne, ha⟩)]
  set sorted := if reverse then List.insertionSort priceGE levels
    else List.insertionSort priceLE levels with hsorted
  have hperm : sorted.Perm levels := by
    rw [hsorted]
    cases reverse
    · simpa using List.perm_insertionSort priceLE levels
    · simpa using List.perm_insertionSort priceGE levels
  have hsne : sorted ≠ [] := by
    intro h
    rw [h] at hperm
    exact hne hperm.symm.eq_nil
  have hsmem : ∀ x ∈ sorted, 0 < x.1 ∧ 0 ≤ x.2 :=
    fun x hx => hlv x (hperm.mem_iff.mp hx)
  have hq0 : 0 < (sorted.getLastD (0, 0)).1 :=
    (hsmem _ (getLastD_mem sorted (0, 0) hsne)).1
  exact div_pos (fill_cost_pos _ sorted hq0 hsmem a ha) ha

/-! ### Claim C7: slippage non-negativity and monotonicity -/

/-- C7 (amended): `calculate_slippage` always returns a non-negative value,
for every book (well-formed or not), side and amount; and for a fixed book
whose relevant side has only positive prices and non-negative volumes it is
monotonically non-decreasing in the amount, on both sides.  (Without the
positivity proviso monotonicity fails, see the counterexample.) -/
theorem c7_slippage_properties :
    (∀ (ob : Option OrderBook) (side : Side) (amount : ℚ),
      0 ≤ calculate_slippage ob side amount) ∧
    (∀ (bids asks : List (ℚ × ℚ)) (a a' : ℚ),
      (∀ x ∈ asks, 0 < x.1 ∧ 0 ≤ x.2) → 0 < a → a ≤ a' →
      calculate_slippage (some ⟨some bids, some asks⟩) Side.buy a ≤
        calculate_slippage (some ⟨some bids, some asks⟩) Side.buy a') ∧
    (∀ (bids asks : List (ℚ × ℚ)) (a a' : ℚ),
      (∀ x ∈ bids, 0 < x.1 ∧ 0 ≤ x.2) → 0 < a → a ≤ a' →
      calculate_slippage (some ⟨some bids, some asks⟩) Side.sell a ≤
        calculate_slippage (some ⟨some bids, some asks⟩) Side.sell a') := by
  refine ⟨?_, ?_, ?_⟩
  · intro ob side amount
    match ob with
    | none => norm_num [calculate_slippage]
    | some book =>
      obtain ⟨obids, oasks⟩ := book
      match obids, oasks with
      | none, none => norm_num [calculate_slippage]
      | none, some asks => norm_num [calculate_slippage]
      | some bids, none => norm_num [calculate_slippage]
      | some bids, some asks =>
        cases side
        · match asks with
          | [] => norm_num [calculate_slippage]
          | (best, bv) :: rest =>
            simp only [calculate_slippage]
            split_ifs
            · exact le_max_left 0 _
            · norm_num
        · match bids with
          | [] => norm_num [calculate_slippage]
          | (best, bv) :: rest =>
            simp only [calculate_slippage]
            split_ifs
            · exact le_max_left 0 _
            · norm_num
  · intro bids asks a a' hlv ha haa
    match asks with
    | [] => simp [calculate_slippage]
    | (best, bv) :: rest =>
      have ha' : 0 < a' := lt_of_lt_of_le ha haa
      have hbest : 0 < best := (hlv (best, bv) (List.mem_cons_self _ _)).1
      have hne : ((best, bv) :: rest : List (ℚ × ℚ)) ≠ [] := by simp
      have hpos := calculate_average_price_pos ((best, bv) :: rest) false hlv hne a ha
      have hpos2 := calculate_average_price_pos ((best, bv) :: rest) false hlv hne a' ha'
      have hmono := calculate_average_price_mono_asc ((best, bv) :: rest) hlv hne
        a a' ha haa
      simp only [calculate_slippage]
      rw [if_pos ⟨hpos, hbest⟩, if_pos ⟨hpos2, hbest⟩]
      have hdiv : calculate_average_price ((best, bv) :: rest) a false / best ≤
          calculate_average_price ((best, bv) :: rest) a' false / best := by
        gcongr
      exact max_le_max le_rfl (by linarith)
  · intro bids asks a a' hlv ha haa
    match bids with
    | [] => simp [calculate_slippage]
    | (best, bv) :: rest =>
      have ha' : 0 < a' := lt_of_lt_of_le ha haa
      have hbest : 0 < best := (hlv (best, bv) (List.mem_cons_self _ _)).1
      have hne : ((best, bv) :: rest : List (ℚ × ℚ)) ≠ [] := by simp
      have hpos := calculate_average_price_pos ((best, bv) :: rest) true hlv hne a ha
      have hpos2 := calculate_average_price_pos ((best, bv) :: rest) true hlv hne a' ha'
      have hanti := calculate_average_price_anti_desc ((best, bv) :: rest) hlv hne
        a a' ha haa
      simp only [calculate_slippage]
      rw [if_pos ⟨hpos, hbest⟩, if_pos ⟨hpos2, hbest⟩]
      have hdiv : calculate_average_price ((best, bv) :: rest) a' true / best ≤
          calculate_average_price ((best, bv) :: rest) a true / best := by
        gcongr
      exact max_le_max le_rfl (by linarith)

/-- The C7 counterexample book: the ask side lists a positive price first
and a zero-price level behind it. -/
def c7_book : Option OrderBook :=
  some { bids := some [], asks := some [(5, 1), (0, 1)] }

/-- C7 counterexample: on `c7_book` the buy slippage at amount 1 is the
`0.001` default (the zero-price level makes the average price 0), while at
the larger amount 2 it is 0 — so `calculate_slippage` is not monotonically
non-decreasing in the amount for every fixed book, refuting the claim as
stated at amounts 1 ≤ 2. -/
theorem c7_counterexample :
    calculate_slippage c7_book Side.buy 1 = 1/1000 ∧
    calculate_slippage c7_book Side.buy 2 = 0 ∧
    ¬ (calculate_slippage c7_book Side.buy 1 ≤
        calculate_slippage c7_book Side.buy 2) := by
  have h1 : calculate_slippage c7_book Side.buy 1 = 1/1000 := by
    norm_num [calculate_slippage, c7_book, calculate_average_price,
      List.insertionSort, List.orderedInsert, priceLE, fill_cost]
  have h2 : calculate_slippage c7_book Side.buy 2 = 0 := by
    norm_num [calculate_slippage, c7_book, calculate_average_price,
      List.insertionSort, List.orderedInsert, priceLE, fill_cost,
      List.cons_ne_nil]
  refine ⟨h1, h2, ?_⟩
  rw [h1, h2]
  norm_num

/-- C7 witness: a well-formed two-level ask book is monotone between
amounts 1 and 3, and the default applies non-negatively to an absent
book. -/
theorem c7_witness :
    calculate_slippage (some ⟨some [(9, 1)], some [(10, 1), (12, 2)]⟩)
        Side.buy 1 ≤
      calculate_slippage (some ⟨some [(9, 1)], some [(10, 1), (12, 2)]⟩)
        Side.buy 3 ∧
    0 ≤ calculate_slippage none Side.sell (-5) :=
  ⟨c7_slippage_properties.2.1 [(9, 1)] [(10, 1), (12, 2)] 1 3
    (by
      intro x hx
      rcases List.mem_cons.mp hx with rfl | hx2
      · norm_num
      · rcases List.mem_cons.mp hx2 with rfl | hx3
        · norm_num
        · exact absurd hx3 (List.not_mem_nil x))
    (by norm_num) (by norm_num),
   c7_slippage_properties.1 none Side.sell (-5)⟩
